import Mathlib

/-!
Verification of the CPER (Common Platform Error Record) decoding and
validation core, drivers/firmware/efi/cper.c, against its specification.

The C code is shallowly embedded: each C function becomes a Lean
definition over explicit record types; machine integers are modelled as
Nat (with explicit wrap-around where the C arithmetic can wrap); printk
output becomes a list of tagged lines; the kernel's atomic counter
becomes an interleaving semantics over its three atomic operations.
-/

/- ## Basic modelling utilities -/

/-- Truncating take on strings, used to model snprintf writing into a
fixed-size buffer: at most n characters are kept. -/
def strTake (s : String) (n : Nat) : String := String.mk (s.data.take n)

/-- Model of printf-style zero-padded lowercase hex rendering with
minimum field width w (as in the kernel format 0x%016llx etc.). -/
def hexPad (w n : Nat) : String :=
  String.mk (List.replicate (w - (Nat.toDigits 16 n).length) '0' ++ Nat.toDigits 16 n)

/-- The kernel errno EINVAL; cper.c reports validation failure as -EINVAL. -/
def EINVAL : Int := 22

/-- Modelled from the spec: sizeof(struct acpi_generic_status), the
fixed header of a status block.  The struct declaration lives in an ACPI
header outside src/; spec section 6 gives the layout
block_status(4) + raw_data_offset(4) + raw_data_length(4) +
data_length(4) + error_severity(4) = 20 bytes. -/
def sizeof_acpi_generic_status : Nat := 20

/-- Modelled from the spec: sizeof(struct acpi_generic_data), one
section descriptor header.  The struct declaration lives in an ACPI
header outside src/; spec section 6 gives the layout
section_type(16) + error_severity(4) + revision(2) + validation_bits(1)
+ flags(1) + error_data_length(4) + fru_id(16) + fru_text(20)
+ timestamp(8) = 72 bytes. -/
def sizeof_acpi_generic_data : Nat := 72

/-- The header fields of struct acpi_generic_status.  All fields are
32-bit unsigned in C and modelled as Nat. -/
structure acpi_generic_status where
  block_status : Nat
  raw_data_offset : Nat
  raw_data_length : Nat
  data_length : Nat
  error_severity : Nat
deriving DecidableEq

/-- Embedding of cper_estatus_check_header (cper.c:389).  Returns 0 on
success and -EINVAL on a malformed header, exactly as the C function. -/
def cper_estatus_check_header (estatus : acpi_generic_status) : Int :=
  if estatus.data_length ≠ 0 ∧ estatus.data_length < sizeof_acpi_generic_data then
    -EINVAL
  else if estatus.raw_data_length ≠ 0 ∧
      estatus.raw_data_offset < sizeof_acpi_generic_status + estatus.data_length then
    -EINVAL
  else 0

/-- Embedding of the while loop of cper_estatus_check (cper.c:413-419)
plus the final leftover test (cper.c:420).  The section-descriptor area
is modelled by ged : the u32 error_data_length field of the descriptor
that starts at a given byte offset from the start of the data area.
The loop guard data_len >= sizeof(*gdata), the truncation test
gedata_len > data_len - sizeof(*gdata) and the advance
data_len -= gedata_len + sizeof(*gdata) are reproduced verbatim; the
subtractions cannot wrap (see the C10 theorem), so Nat subtraction is
exact here. -/
def cper_estatus_check_loop (ged : Nat → Nat) (off data_len : Nat) : Int :=
  if h : sizeof_acpi_generic_data ≤ data_len then
    let gedata_len := ged off
    if data_len - sizeof_acpi_generic_data < gedata_len then -EINVAL
    else cper_estatus_check_loop ged (off + sizeof_acpi_generic_data + gedata_len)
      (data_len - (gedata_len + sizeof_acpi_generic_data))
  else if data_len ≠ 0 then -EINVAL else 0
termination_by data_len
decreasing_by
  simp_wf
  simp only [sizeof_acpi_generic_data] at h ⊢
  omega

/-- Embedding of cper_estatus_check (cper.c:402): header check first,
then the bounds-checking walk over the descriptor list. -/
def cper_estatus_check (estatus : acpi_generic_status) (ged : Nat → Nat) : Int :=
  let rc := cper_estatus_check_header estatus
  if rc ≠ 0 then rc
  else cper_estatus_check_loop ged 0 estatus.data_length

/-- Fuel-indexed version of the same loop, used to express that the C
loop terminates within a bounded number of iterations: none means the
fuel ran out before the loop finished. -/
def cper_estatus_check_loop_fuel (ged : Nat → Nat) : Nat → Nat → Nat → Option Int
  | 0, _, _ => none
  | fuel+1, off, data_len =>
    if sizeof_acpi_generic_data ≤ data_len then
      let gedata_len := ged off
      if data_len - sizeof_acpi_generic_data < gedata_len then some (-EINVAL)
      else cper_estatus_check_loop_fuel ged fuel (off + sizeof_acpi_generic_data + gedata_len)
        (data_len - (gedata_len + sizeof_acpi_generic_data))
    else if data_len ≠ 0 then some (-EINVAL) else some 0

/- ## Helper lemmas about the validation walk -/

theorem cper_estatus_check_loop_unfold (ged : Nat → Nat) (off data_len : Nat) :
    cper_estatus_check_loop ged off data_len =
      if sizeof_acpi_generic_data ≤ data_len then
        if data_len - sizeof_acpi_generic_data < ged off then -EINVAL
        else cper_estatus_check_loop ged (off + sizeof_acpi_generic_data + ged off)
          (data_len - (ged off + sizeof_acpi_generic_data))
      else if data_len ≠ 0 then -EINVAL else 0 := by
  rw [cper_estatus_check_loop]
  rfl

theorem cper_estatus_check_loop_fuel_sound (ged : Nat → Nat) :
    ∀ fuel off data_len, data_len < fuel →
      cper_estatus_check_loop_fuel ged fuel off data_len =
        some (cper_estatus_check_loop ged off data_len) := by
  intro fuel
  induction fuel with
  | zero => intro off data_len h; omega
  | succ n ih =>
    intro off data_len h
    rw [cper_estatus_check_loop_unfold]
    simp only [cper_estatus_check_loop_fuel]
    by_cases h1 : sizeof_acpi_generic_data ≤ data_len
    · simp only [if_pos h1]
      by_cases h2 : data_len - sizeof_acpi_generic_data < ged off
      · simp [h2]
      · simp only [if_neg h2]
        apply ih
        simp only [sizeof_acpi_generic_data] at h1 ⊢
        omega
    · simp only [if_neg h1]
      split_ifs <;> rfl

/-- Evaluation helper: a fuel-based computation determines the
well-founded loop's value. -/
theorem cper_estatus_check_loop_eval (ged : Nat → Nat) (off data_len : Nat) (r : Int)
    (h : cper_estatus_check_loop_fuel ged (data_len + 1) off data_len = some r) :
    cper_estatus_check_loop ged off data_len = r := by
  have h2 := cper_estatus_check_loop_fuel_sound ged (data_len + 1) off data_len (by omega)
  rw [h] at h2
  exact (Option.some.inj h2).symm

/- ## Claim C2 -/

/-- C2: cper_estatus_check_header fails with -EINVAL (Malformed)
exactly when data_length is nonzero but smaller than
sizeof(GenericErrorData), or raw_data_length is nonzero but
raw_data_offset is smaller than sizeof(GenericStatusBlock) +
data_length; in every other case it returns 0.  It is a pure function
of the header fields (it is a Lean function of the record
acpi_generic_status, hence side-effect free by construction). -/
theorem c2_check_header_malformed_iff (estatus : acpi_generic_status) :
    (cper_estatus_check_header estatus = -EINVAL ↔
      ((estatus.data_length ≠ 0 ∧ estatus.data_length < sizeof_acpi_generic_data) ∨
       (estatus.raw_data_length ≠ 0 ∧
         estatus.raw_data_offset < sizeof_acpi_generic_status + estatus.data_length))) ∧
    (cper_estatus_check_header estatus = 0 ↔
      ¬ ((estatus.data_length ≠ 0 ∧ estatus.data_length < sizeof_acpi_generic_data) ∨
         (estatus.raw_data_length ≠ 0 ∧
           estatus.raw_data_offset < sizeof_acpi_generic_status + estatus.data_length))) := by
  unfold cper_estatus_check_header
  split_ifs with h1 h2
  · simp only [EINVAL]
    constructor
    · constructor <;> intro <;> tauto
    · constructor
      · intro h; omega
      · intro h; exact absurd (Or.inl h1) h
  · simp only [EINVAL]
    constructor
    · constructor <;> intro <;> tauto
    · constructor
      · intro h; omega
      · intro h; exact absurd (Or.inr h2) h
  · simp only [EINVAL]
    constructor
    · constructor
      · intro h; omega
      · intro h; tauto
    · constructor <;> intro <;> tauto

/- ## Spec-side description of an exhaustive walk (for C1) -/

/-- Spec-side predicate, following the claim's words: repeatedly
consuming sizeof(GenericErrorData) plus the current descriptor's
error_data_length exhausts the remaining count exactly.  ged off is the
error_data_length of the descriptor at byte offset off. -/
inductive WalkExhausts (ged : Nat → Nat) : Nat → Nat → Prop
  | nil (off : Nat) : WalkExhausts ged off 0
  | cons (off n : Nat) (hfit : sizeof_acpi_generic_data + ged off ≤ n)
      (rest : WalkExhausts ged (off + sizeof_acpi_generic_data + ged off)
        (n - (sizeof_acpi_generic_data + ged off))) :
      WalkExhausts ged off n

theorem check_loop_eq_zero_iff (ged : Nat → Nat) :
    ∀ n off, cper_estatus_check_loop ged off n = 0 ↔ WalkExhausts ged off n := by
  have hsz : sizeof_acpi_generic_data = 72 := rfl
  intro n
  induction n using Nat.strong_induction_on with
  | _ n ih =>
    intro off
    rw [cper_estatus_check_loop_unfold]
    by_cases h1 : sizeof_acpi_generic_data ≤ n
    · rw [if_pos h1]
      by_cases h2 : n - sizeof_acpi_generic_data < ged off
      · rw [if_pos h2]
        constructor
        · intro h; exact absurd h (by norm_num [EINVAL])
        · intro h
          cases h with
          | nil => omega
          | cons _ _ hfit _ => omega
      · rw [if_neg h2]
        rw [ih (n - (ged off + sizeof_acpi_generic_data)) (by omega)]
        constructor
        · intro h
          refine WalkExhausts.cons off n (by omega) ?_
          have harith : n - (sizeof_acpi_generic_data + ged off) =
              n - (ged off + sizeof_acpi_generic_data) := by omega
          rw [harith]
          exact h
        · intro h
          cases h with
          | nil => omega
          | cons _ _ hfit hrest =>
            have harith : n - (sizeof_acpi_generic_data + ged off) =
                n - (ged off + sizeof_acpi_generic_data) := by omega
            rw [harith] at hrest
            exact hrest
    · rw [if_neg h1]
      by_cases h0 : n = 0
      · subst h0
        simp only [ne_eq, not_true_eq_false, if_false]
        constructor
        · intro _; exact WalkExhausts.nil off
        · intro _; trivial
      · rw [if_pos h0]
        constructor
        · intro h; exact absurd h (by norm_num [EINVAL])
        · intro h
          cases h with
          | nil => exact absurd rfl h0
          | cons _ _ hfit _ => omega

/-- Total bytes consumed by a list of descriptors with the given
error_data_length values: one descriptor header plus the payload each. -/
def consumedLen : List Nat → Nat
  | [] => 0
  | l :: ls => (sizeof_acpi_generic_data + l) + consumedLen ls

/-- The descriptor area holds, starting at byte offset off, descriptors
whose error_data_length fields are exactly the list ls. -/
def LaysOut (ged : Nat → Nat) : Nat → List Nat → Prop
  | _, [] => True
  | off, l :: ls => ged off = l ∧ LaysOut ged (off + sizeof_acpi_generic_data + l) ls

theorem check_loop_skip (ged : Nat → Nat) :
    ∀ (ls : List Nat) (off rest : Nat), LaysOut ged off ls →
      cper_estatus_check_loop ged off (consumedLen ls + rest) =
        cper_estatus_check_loop ged (off + consumedLen ls) rest := by
  have hsz : sizeof_acpi_generic_data = 72 := rfl
  intro ls
  induction ls with
  | nil =>
    intro off rest _
    simp only [consumedLen, Nat.zero_add, Nat.add_zero]
  | cons l ls ih =>
    intro off rest hlay
    obtain ⟨hl, hrest⟩ := hlay
    rw [cper_estatus_check_loop_unfold]
    have h1 : sizeof_acpi_generic_data ≤ consumedLen (l :: ls) + rest := by
      simp only [consumedLen]; omega
    rw [if_pos h1, hl]
    have h2 : ¬ (consumedLen (l :: ls) + rest - sizeof_acpi_generic_data < l) := by
      simp only [consumedLen]; omega
    rw [if_neg h2]
    have h3 : consumedLen (l :: ls) + rest - (l + sizeof_acpi_generic_data) =
        consumedLen ls + rest := by
      simp only [consumedLen]; omega
    rw [h3, ih (off + sizeof_acpi_generic_data + l) rest hrest]
    have h4 : off + sizeof_acpi_generic_data + l + consumedLen ls =
        off + consumedLen (l :: ls) := by
      simp only [consumedLen]; omega
    rw [h4]

/- ## Claim C1 -/

/-- C1: for a blob whose header passes cper_estatus_check_header,
cper_estatus_check succeeds iff repeatedly consuming
sizeof(GenericErrorData) plus each descriptor's error_data_length
exhausts data_length exactly; after any number of well-formed
descriptors, a descriptor whose error_data_length exceeds the bytes
remaining after its header makes the check fail with -EINVAL
(Truncated); a nonzero leftover smaller than one descriptor header also
fails with -EINVAL; and data_length = 0 always succeeds. -/
theorem c1_check_exhaustion (estatus : acpi_generic_status) (ged : Nat → Nat)
    (hhdr : cper_estatus_check_header estatus = 0) :
    (cper_estatus_check estatus ged = 0 ↔ WalkExhausts ged 0 estatus.data_length) ∧
    (∀ ls rest, LaysOut ged 0 ls →
      estatus.data_length = consumedLen ls + rest →
      sizeof_acpi_generic_data ≤ rest →
      rest - sizeof_acpi_generic_data < ged (consumedLen ls) →
      cper_estatus_check estatus ged = -EINVAL) ∧
    (∀ ls rest, LaysOut ged 0 ls →
      estatus.data_length = consumedLen ls + rest →
      0 < rest → rest < sizeof_acpi_generic_data →
      cper_estatus_check estatus ged = -EINVAL) ∧
    (estatus.data_length = 0 → cper_estatus_check estatus ged = 0) := by
  have hsz : sizeof_acpi_generic_data = 72 := rfl
  have hcheck : cper_estatus_check estatus ged =
      cper_estatus_check_loop ged 0 estatus.data_length := by
    unfold cper_estatus_check
    rw [hhdr]
    simp
  refine ⟨?_, ?_, ?_, ?_⟩
  · rw [hcheck]
    exact check_loop_eq_zero_iff ged estatus.data_length 0
  · intro ls rest hlay hlen hge hbig
    rw [hcheck, hlen, check_loop_skip ged ls 0 rest hlay, Nat.zero_add,
      cper_estatus_check_loop_unfold, if_pos hge, if_pos hbig]
  · intro ls rest hlay hlen hpos hsmall
    rw [hcheck, hlen, check_loop_skip ged ls 0 rest hlay,
      cper_estatus_check_loop_unfold, if_neg (by omega), if_pos (by omega)]
  · intro h0
    rw [hcheck, h0, cper_estatus_check_loop_unfold, if_neg (by omega),
      if_neg (by omega)]

/-- Concrete instance of C1: a 149-byte descriptor area laid out as one
well-formed 5-byte-payload descriptor followed by a descriptor whose
claimed 1000-byte payload exceeds the zero bytes remaining after its
header is rejected with -EINVAL. -/
theorem c1_check_exhaustion_witness :
    cper_estatus_check ⟨0, 0, 0, 149, 0⟩
      (fun off => if off = 0 then 5 else 1000) = -EINVAL :=
  (c1_check_exhaustion ⟨0, 0, 0, 149, 0⟩ (fun off => if off = 0 then 5 else 1000)
    (by decide)).2.1 [5] 72 ⟨rfl, trivial⟩ rfl (by decide) (by decide)

/- ## Claim C10 -/

/-- C10: the walk of cper_estatus_check terminates on every input: the
fuel-indexed rendition of its loop finishes (returns some) within
data_len + 1 iterations and agrees with the loop everywhere; moreover,
in the non-failing case the bound gedata_len <= data_len -
sizeof(GenericErrorData) established by the Truncated test makes
gedata_len + sizeof(GenericErrorData) <= data_len, so the subtraction
data_len -= gedata_len + sizeof(GenericErrorData) cannot wrap and each
iteration decreases data_len by at least sizeof(GenericErrorData). -/
theorem c10_check_loop_terminates (ged : Nat → Nat) :
    (∀ off data_len, cper_estatus_check_loop_fuel ged (data_len + 1) off data_len =
        some (cper_estatus_check_loop ged off data_len)) ∧
    (∀ off data_len, sizeof_acpi_generic_data ≤ data_len →
      ged off ≤ data_len - sizeof_acpi_generic_data →
      ged off + sizeof_acpi_generic_data ≤ data_len ∧
      data_len - (ged off + sizeof_acpi_generic_data) + sizeof_acpi_generic_data ≤ data_len) := by
  have hsz : sizeof_acpi_generic_data = 72 := rfl
  constructor
  · intro off data_len
    exact cper_estatus_check_loop_fuel_sound ged (data_len + 1) off data_len (by omega)
  · intro off data_len h1 h2
    omega

/-- Concrete instance of C10 at a 100-byte remaining count holding a
3-byte-payload descriptor. -/
theorem c10_check_loop_terminates_witness :
    (fun _ : Nat => (3 : Nat)) 0 + sizeof_acpi_generic_data ≤ 100 ∧
    100 - ((fun _ : Nat => (3 : Nat)) 0 + sizeof_acpi_generic_data) +
      sizeof_acpi_generic_data ≤ 100 :=
  (c10_check_loop_terminates (fun _ => 3)).2 0 100 (by decide) (by decide)

/- ## Output model for the rendering functions -/

/-- Log channel of one emitted line: printk (normal report), pr_debug
(debug-level log) or pr_err (error log). -/
inductive LogLevel
  | normal
  | debug
  | err
deriving DecidableEq

/-- One line of diagnostic output together with its log channel. -/
structure Line where
  level : LogLevel
  text : String
deriving DecidableEq

/- ## cper_print_bits (cper.c:77) -/

/-- The local state of cper_print_bits: the 84-byte line buffer buf,
the C variable len (the would-be length as returned by snprintf, which
can exceed what the buffer actually holds), and the lines flushed so
far. -/
structure BitsBuf where
  buf : String
  len : Nat
  out : List String
deriving DecidableEq

/-- One iteration of the loop body of cper_print_bits (cper.c:84-98)
at bit position i with table entry strOpt.  snprintf into the 84-byte
buffer is modelled by strTake: the first write keeps at most 83
characters, the append write at most 83 - len; len advances by the full
untruncated length, as snprintf returns it. -/
def cper_print_bits_step (pfx : String) (bits : Nat) (i : Nat) (strOpt : Option String)
    (s : BitsBuf) : BitsBuf :=
  if bits &&& (1 <<< i) = 0 then s
  else match strOpt with
    | none => s
    | some str =>
      if s.len ≠ 0 ∧ 80 < s.len + str.length + 2 then
        { buf := strTake (pfx ++ str) 83, len := (pfx ++ str).length,
          out := s.out ++ [s.buf] }
      else if s.len = 0 then
        { buf := strTake (pfx ++ str) 83, len := (pfx ++ str).length, out := s.out }
      else
        { buf := s.buf ++ strTake (", " ++ str) (83 - s.len),
          len := s.len + (", " ++ str).length, out := s.out }

/-- The loop of cper_print_bits over the string table, with i the
current bit position. -/
def cper_print_bits_go (pfx : String) (bits : Nat) :
    List (Option String) → Nat → BitsBuf → BitsBuf
  | [], _, s => s
  | strOpt :: rest, i, s =>
    cper_print_bits_go pfx bits rest (i + 1) (cper_print_bits_step pfx bits i strOpt s)

/-- The final flush of cper_print_bits (cper.c:99-100). -/
def cper_print_bits_finish (s : BitsBuf) : List String :=
  if s.len ≠ 0 then s.out ++ [s.buf] else s.out

/-- Embedding of cper_print_bits (cper.c:77): the lines printed, in
order, without the trailing newline each printk("%s\n", buf) adds. -/
def cper_print_bits (pfx : String) (bits : Nat) (strs : List (Option String)) : List String :=
  cper_print_bits_finish (cper_print_bits_go pfx bits strs 0 ⟨"", 0, []⟩)

/- ## Spec-side description of cper_print_bits (for C7) -/

/-- Spec-side selection, following the claim's words: the names of set
bits with non-null table entries within the table's length, in
ascending bit-position order; null entries and positions at or beyond
the table length are silently skipped. -/
def selNamesFrom (bits : Nat) : List (Option String) → Nat → List String
  | [], _ => []
  | none :: rest, i => selNamesFrom bits rest (i + 1)
  | some str :: rest, i =>
    (if bits &&& (1 <<< i) ≠ 0 then [str] else []) ++ selNamesFrom bits rest (i + 1)

/-- Spec-side greedy line wrapping, following the claim's words: names
joined by ", " on lines each starting with the prefix, starting a new
line whenever appending would make the current line exceed 80
columns. -/
def wrapGo (pfx : String) : List String → Option String → List String
  | [], none => []
  | [], some buf => [buf]
  | n :: ns, none => wrapGo pfx ns (some (pfx ++ n))
  | n :: ns, some buf =>
    if 80 < buf.length + n.length + 2 then
      buf :: wrapGo pfx ns (some (pfx ++ n))
    else
      wrapGo pfx ns (some (buf ++ (", " ++ n)))

/-- Spec-side rendering of a bitmask against a name table. -/
def format_bits_spec (pfx : String) (bits : Nat) (strs : List (Option String)) : List String :=
  wrapGo pfx (selNamesFrom bits strs 0) none

theorem strTake_eq_self (s : String) (n : Nat) (h : s.length ≤ n) : strTake s n = s := by
  cases s with
  | mk data =>
    simp only [strTake]
    congr 1
    exact List.take_of_length_le h

theorem cper_print_bits_go_spec (pfx : String) (bits : Nat) :
    ∀ strs : List (Option String), ∀ i : Nat,
      (∀ n ∈ selNamesFrom bits strs i,
        0 < pfx.length + n.length ∧ pfx.length + n.length ≤ 83) →
      (∀ out b0, cper_print_bits_finish (cper_print_bits_go pfx bits strs i ⟨b0, 0, out⟩) =
          out ++ wrapGo pfx (selNamesFrom bits strs i) none) ∧
      (∀ out buf, 0 < buf.length →
        cper_print_bits_finish (cper_print_bits_go pfx bits strs i ⟨buf, buf.length, out⟩) =
          out ++ wrapGo pfx (selNamesFrom bits strs i) (some buf)) := by
  intro strs
  induction strs with
  | nil =>
    intro i _
    constructor
    · intro out b0
      simp [cper_print_bits_go, cper_print_bits_finish, selNamesFrom, wrapGo]
    · intro out buf hbuf
      simp only [cper_print_bits_go, cper_print_bits_finish, selNamesFrom, wrapGo]
      rw [if_pos (by omega)]
  | cons strOpt rest ih =>
    intro i hfit
    by_cases hb : bits &&& (1 <<< i) = 0
    · have hstep : ∀ s, cper_print_bits_step pfx bits i strOpt s = s := by
        intro s
        simp [cper_print_bits_step, hb]
      have hsel : selNamesFrom bits (strOpt :: rest) i = selNamesFrom bits rest (i + 1) := by
        cases strOpt with
        | none => rfl
        | some str => simp [selNamesFrom, hb]
      have hfit' : ∀ n ∈ selNamesFrom bits rest (i + 1),
          0 < pfx.length + n.length ∧ pfx.length + n.length ≤ 83 := by
        intro n hn
        exact hfit n (by rw [hsel]; exact hn)
      constructor
      · intro out b0
        simp only [cper_print_bits_go, hstep, hsel]
        exact (ih (i + 1) hfit').1 out b0
      · intro out buf hbuf
        simp only [cper_print_bits_go, hstep, hsel]
        exact (ih (i + 1) hfit').2 out buf hbuf
    · cases strOpt with
      | none =>
        have hstep : ∀ s, cper_print_bits_step pfx bits i none s = s := by
          intro s
          simp [cper_print_bits_step]
        have hfit' : ∀ n ∈ selNamesFrom bits rest (i + 1),
            0 < pfx.length + n.length ∧ pfx.length + n.length ≤ 83 := by
          intro n hn
          exact hfit n hn
        constructor
        · intro out b0
          simp only [cper_print_bits_go, hstep]
          exact (ih (i + 1) hfit').1 out b0
        · intro out buf hbuf
          simp only [cper_print_bits_go, hstep]
          exact (ih (i + 1) hfit').2 out buf hbuf
      | some str =>
        have hsel : selNamesFrom bits (some str :: rest) i =
            str :: selNamesFrom bits rest (i + 1) := by
          simp [selNamesFrom, hb]
        have hhead := hfit str (by rw [hsel]; exact List.mem_cons_self str _)
        have hfit' : ∀ n ∈ selNamesFrom bits rest (i + 1),
            0 < pfx.length + n.length ∧ pfx.length + n.length ≤ 83 := by
          intro n hn
          exact hfit n (by rw [hsel]; exact List.mem_cons_of_mem str hn)
        have hfirst : strTake (pfx ++ str) 83 = pfx ++ str := by
          apply strTake_eq_self
          rw [String.length_append]
          exact hhead.2
        have hlenfirst : (pfx ++ str).length = pfx.length + str.length :=
          String.length_append pfx str
        constructor
        · intro out b0
          simp only [cper_print_bits_go]
          have hstep : cper_print_bits_step pfx bits i (some str) ⟨b0, 0, out⟩ =
              ⟨pfx ++ str, (pfx ++ str).length, out⟩ := by
            simp [cper_print_bits_step, hb, hfirst]
          rw [hstep, hsel]
          have := (ih (i + 1) hfit').2 out (pfx ++ str) (by omega)
          rw [this]
          rfl
        · intro out buf hbuf
          simp only [cper_print_bits_go]
          by_cases hw : 80 < buf.length + str.length + 2
          · have hstep : cper_print_bits_step pfx bits i (some str) ⟨buf, buf.length, out⟩ =
                ⟨pfx ++ str, (pfx ++ str).length, out ++ [buf]⟩ := by
              simp only [cper_print_bits_step, if_neg hb]
              rw [if_pos (show (BitsBuf.mk buf buf.length out).len ≠ 0 ∧
                80 < (BitsBuf.mk buf buf.length out).len + str.length + 2 from
                  ⟨Nat.pos_iff_ne_zero.mp hbuf, hw⟩)]
              rw [hfirst]
            rw [hstep, hsel]
            have hih := (ih (i + 1) hfit').2 (out ++ [buf]) (pfx ++ str) (by omega)
            rw [hih]
            simp only [wrapGo, if_pos hw]
            rw [List.append_assoc]
            rfl
          · have happ : strTake (", " ++ str) (83 - buf.length) = ", " ++ str := by
              apply strTake_eq_self
              rw [String.length_append]
              have h2 : (", " : String).length = 2 := rfl
              omega
            have hstep : cper_print_bits_step pfx bits i (some str) ⟨buf, buf.length, out⟩ =
                ⟨buf ++ (", " ++ str), buf.length + (", " ++ str).length, out⟩ := by
              simp only [cper_print_bits_step, if_neg hb]
              rw [if_neg (show ¬ ((BitsBuf.mk buf buf.length out).len ≠ 0 ∧
                80 < (BitsBuf.mk buf buf.length out).len + str.length + 2) from
                  fun hc => hw hc.2)]
              rw [if_neg (Nat.pos_iff_ne_zero.mp hbuf)]
              rw [happ]
            rw [hstep, hsel]
            have hlen2 : buf.length + (", " ++ str).length = (buf ++ (", " ++ str)).length := by
              simp [String.length_append]
            rw [hlen2]
            have hih := (ih (i + 1) hfit').2 out (buf ++ (", " ++ str))
              (by rw [String.length_append]; omega)
            rw [hih]
            simp only [wrapGo, if_neg hw]

/- ## Claim C7 -/

/-- C7 counterexample: with a 90-character prefix and bit 0 set against
a one-entry table, the 84-byte line buffer truncates the assembled line
to 83 characters, so the emitted line is not "<prefix><name>" and does
not even start with the prefix — refuting the claim for every prefix. -/
theorem c7_counterexample :
    (cper_print_bits (String.mk (List.replicate 90 'a')) 1 [some "x"] ≠
      [String.mk (List.replicate 90 'a') ++ "x"]) ∧
    (∀ l ∈ cper_print_bits (String.mk (List.replicate 90 'a')) 1 [some "x"],
      (String.mk (List.replicate 90 'a')).isPrefixOf l = false) := by
  constructor
  · decide
  · decide

/-- C7 (amended): provided every selected name fits the 84-byte line
buffer together with the prefix (prefix length + name length ≤ 83, and
not both empty), cper_print_bits emits, in ascending bit-position
order, exactly the names of set bits with non-null entries within the
table's length, joined by ", " on lines each starting with the prefix,
starting a new line whenever appending would make the line exceed 80
columns; and bits {0,3} against the 4-entry table [restartable,
precise IP, overflow, corrected] render as the single line
"<prefix>restartable, corrected" whenever the prefix is at most 58
characters. -/
theorem c7_print_bits_wraps :
    (∀ (pfx : String) (bits : Nat) (strs : List (Option String)),
      (∀ n ∈ selNamesFrom bits strs 0,
        0 < pfx.length + n.length ∧ pfx.length + n.length ≤ 83) →
      cper_print_bits pfx bits strs = format_bits_spec pfx bits strs) ∧
    (∀ pfx : String, pfx.length ≤ 58 →
      cper_print_bits pfx 9 [some "restartable", some "precise IP", some "overflow",
        some "corrected"] = [pfx ++ "restartable, corrected"]) := by
  have main : ∀ (pfx : String) (bits : Nat) (strs : List (Option String)),
      (∀ n ∈ selNamesFrom bits strs 0,
        0 < pfx.length + n.length ∧ pfx.length + n.length ≤ 83) →
      cper_print_bits pfx bits strs = format_bits_spec pfx bits strs := by
    intro pfx bits strs hfit
    unfold cper_print_bits format_bits_spec
    exact (cper_print_bits_go_spec pfx bits strs 0 hfit).1 [] ""
  refine ⟨main, ?_⟩
  intro pfx hpfx
  have hsel : selNamesFrom 9 [some "restartable", some "precise IP", some "overflow",
      some "corrected"] 0 = ["restartable", "corrected"] := by decide
  have hfit : ∀ n ∈ selNamesFrom 9 [some "restartable", some "precise IP", some "overflow",
      some "corrected"] 0, 0 < pfx.length + n.length ∧ pfx.length + n.length ≤ 83 := by
    rw [hsel]
    intro n hn
    have h11 : n.length ≤ 11 := by
      cases hn with
      | head => decide
      | tail _ h2 =>
        cases h2 with
        | head => decide
        | tail _ h3 => cases h3
    have h1 : 0 < n.length := by
      cases hn with
      | head => decide
      | tail _ h2 =>
        cases h2 with
        | head => decide
        | tail _ h3 => cases h3
    omega
  rw [main pfx 9 _ hfit]
  unfold format_bits_spec
  rw [hsel]
  simp only [wrapGo]
  have hr : (pfx ++ "restartable").length = pfx.length + 11 := by
    rw [String.length_append]
    rfl
  have hc : ("corrected" : String).length = 9 := rfl
  rw [if_neg (by rw [hr, hc]; omega)]
  rw [String.append_assoc]
  congr 1

/-- Concrete instance of C7: prefix "P: " with bits {0,3} set against
the 4-entry processor-flags table renders as one line. -/
theorem c7_print_bits_wraps_witness :
    cper_print_bits "P: " 9 [some "restartable", some "precise IP", some "overflow",
      some "corrected"] = ["P: restartable, corrected"] :=
  c7_print_bits_wraps.2 "P: " (by decide)

/- ## Constants of the rendering layer -/

/-- Modelled from the spec: the three known 16-byte section type
identifiers (UEFI Appendix N GUIDs), declared in linux/cper.h which is
outside src/.  Only their identity and distinctness matter to the
dispatch in cper_estatus_print_section. -/
def CPER_SEC_PROC_GENERIC : Nat := 0x9876ccad47b44bdbb65e16f193c4f3db

/-- Modelled from the spec: the platform-memory section type GUID. -/
def CPER_SEC_PLATFORM_MEM : Nat := 0xa5bc11146f644edeb8633e83ed7c83b1

/-- Modelled from the spec: the PCI-Express section type GUID. -/
def CPER_SEC_PCIE : Nat := 0xd995e954bbc1430fad91b44dcb3c6f35

/-- Modelled from the spec: severity value "fatal" (1) used as a bit
mask by cper_print_pcie, and "corrected" (2); spec section 6 gives
0=recoverable, 1=fatal, 2=corrected, 3=info. -/
def CPER_SEV_FATAL : Nat := 1

/-- Modelled from the spec: severity value "corrected". -/
def CPER_SEV_CORRECTED : Nat := 2

/-- Modelled from the spec: section-descriptor validation bits from
linux/cper.h (outside src/). -/
def CPER_SEC_VALID_FRU_ID : Nat := 0x1
def CPER_SEC_VALID_FRU_TEXT : Nat := 0x2

/-- Modelled from the spec: processor-generic section validation bits
from linux/cper.h (outside src/). -/
def CPER_PROC_VALID_TYPE : Nat := 0x0001
def CPER_PROC_VALID_ISA : Nat := 0x0002
def CPER_PROC_VALID_ERROR_TYPE : Nat := 0x0004
def CPER_PROC_VALID_OPERATION : Nat := 0x0008
def CPER_PROC_VALID_FLAGS : Nat := 0x0010
def CPER_PROC_VALID_LEVEL : Nat := 0x0020
def CPER_PROC_VALID_VERSION : Nat := 0x0040
def CPER_PROC_VALID_ID : Nat := 0x0100
def CPER_PROC_VALID_TARGET_ADDRESS : Nat := 0x0200
def CPER_PROC_VALID_REQUESTOR_ID : Nat := 0x0400
def CPER_PROC_VALID_RESPONDER_ID : Nat := 0x0800
def CPER_PROC_VALID_IP : Nat := 0x1000

/-- Modelled from the spec: memory section validation bits from
linux/cper.h (outside src/). -/
def CPER_MEM_VALID_ERROR_STATUS : Nat := 0x1
def CPER_MEM_VALID_PA : Nat := 0x2
def CPER_MEM_VALID_PA_MASK : Nat := 0x4
def CPER_MEM_VALID_NODE : Nat := 0x8
def CPER_MEM_VALID_CARD : Nat := 0x10
def CPER_MEM_VALID_MODULE : Nat := 0x20
def CPER_MEM_VALID_BANK : Nat := 0x40
def CPER_MEM_VALID_DEVICE : Nat := 0x80
def CPER_MEM_VALID_ROW : Nat := 0x100
def CPER_MEM_VALID_COLUMN : Nat := 0x200
def CPER_MEM_VALID_BIT_POSITION : Nat := 0x400
def CPER_MEM_VALID_REQUESTOR_ID : Nat := 0x800
def CPER_MEM_VALID_RESPONDER_ID : Nat := 0x1000
def CPER_MEM_VALID_TARGET_ID : Nat := 0x2000
def CPER_MEM_VALID_ERROR_TYPE : Nat := 0x4000
def CPER_MEM_VALID_RANK_NUMBER : Nat := 0x8000
def CPER_MEM_VALID_MODULE_HANDLE : Nat := 0x20000

/-- Modelled from the spec: PCIe section validation bits from
linux/cper.h (outside src/). -/
def CPER_PCIE_VALID_PORT_TYPE : Nat := 0x1
def CPER_PCIE_VALID_VERSION : Nat := 0x2
def CPER_PCIE_VALID_COMMAND_STATUS : Nat := 0x4
def CPER_PCIE_VALID_DEVICE_ID : Nat := 0x8
def CPER_PCIE_VALID_SERIAL_NUMBER : Nat := 0x10
def CPER_PCIE_VALID_BRIDGE_CONTROL_STATUS : Nat := 0x20
def CPER_PCIE_VALID_AER_INFO : Nat := 0x80

/-- Modelled from the spec: linux/cper.h slot field shift. -/
def CPER_PCIE_SLOT_SHIFT : Nat := 3

/-- INDENT_SP (cper.c:36). -/
def INDENT_SP : String := " "

/-- Modelled from the spec: the kernel FW_WARN prefix used by pr_err in
cper_estatus_print_section; its exact text does not matter here. -/
def FW_WARN : String := "[Firmware Warn]: "

/-- Models the printk %pUl rendering of a 16-byte identifier. -/
def pUl (u : Nat) : String := hexPad 32 u

/-- Modelled from the spec: sizeof(struct cper_sec_proc_generic), the
fixed C layout of the processor-generic payload (linux/cper.h, outside
src/). -/
def sizeof_cper_sec_proc_generic : Nat := 192

/-- Modelled from the spec: sizeof(struct cper_sec_mem_err)
(linux/cper.h, outside src/). -/
def sizeof_cper_sec_mem_err : Nat := 80

/-- Modelled from the spec: sizeof(struct cper_sec_pcie)
(linux/cper.h, outside src/). -/
def sizeof_cper_sec_pcie : Nat := 208

/- ## String tables (cper.c:53-133, 180-197, 250-262) -/

def cper_severity_strs : List String := ["recoverable", "fatal", "corrected", "info"]

/-- Embedding of cper_severity_str (cper.c:60): in-bounds lookup, else
"unknown". -/
def cper_severity_str (severity : Nat) : String := cper_severity_strs.getD severity "unknown"

def cper_proc_type_strs : List String := ["IA32/X64", "IA64"]

def cper_proc_isa_strs : List String := ["IA32", "IA64", "X64"]

def cper_proc_error_type_strs : List (Option String) :=
  [some "cache error", some "TLB error", some "bus error", some "micro-architectural error"]

def cper_proc_op_strs : List String :=
  ["unknown or generic", "data read", "data write", "instruction execution"]

def cper_proc_flag_strs : List (Option String) :=
  [some "restartable", some "precise IP", some "overflow", some "corrected"]

def cper_mem_err_type_strs : List String :=
  ["unknown", "no error", "single-bit ECC", "multi-bit ECC",
   "single-symbol chipkill ECC", "multi-symbol chipkill ECC", "master abort",
   "target abort", "parity error", "watchdog timeout", "invalid address",
   "mirror Broken", "memory sparing", "scrub corrected error",
   "scrub uncorrected error", "physical memory map-out event"]

def cper_pcie_port_type_strs : List String :=
  ["PCIe end point", "legacy PCI end point", "unknown", "unknown", "root port",
   "upstream switch port", "downstream switch port", "PCIe to PCI/PCI-X bridge",
   "PCI/PCI-X to PCIe bridge", "root complex integrated endpoint device",
   "root complex event collector"]

/- ## Section payload structures (field layout from the spec / cper.h) -/

/-- struct cper_sec_proc_generic: the fields cper.c reads.  The unread
cpu_brand text is included for completeness. -/
structure cper_sec_proc_generic where
  validation_bits : Nat
  proc_type : Nat
  proc_isa : Nat
  proc_error_type : Nat
  operation : Nat
  flags : Nat
  level : Nat
  cpu_version : Nat
  cpu_brand : String
  proc_id : Nat
  target_addr : Nat
  requestor_id : Nat
  responder_id : Nat
  ip : Nat
deriving DecidableEq

/-- struct cper_sec_mem_err: the fields cper.c reads. -/
structure cper_sec_mem_err where
  validation_bits : Nat
  error_status : Nat
  physical_addr : Nat
  physical_addr_mask : Nat
  node : Nat
  card : Nat
  module : Nat
  bank : Nat
  device : Nat
  row : Nat
  column : Nat
  bit_pos : Nat
  requestor_id : Nat
  responder_id : Nat
  target_id : Nat
  error_type : Nat
  rank : Nat
  mem_array_handle : Nat
  mem_dev_handle : Nat
deriving DecidableEq

/-- The version sub-struct of cper_sec_pcie. -/
structure cper_pcie_version where
  minor : Nat
  major : Nat
deriving DecidableEq

/-- The device_id sub-struct of cper_sec_pcie. -/
structure cper_pcie_device_id where
  vendor_id : Nat
  device_id : Nat
  class_code0 : Nat
  class_code1 : Nat
  class_code2 : Nat
  function : Nat
  device : Nat
  segment : Nat
  bus : Nat
  secondary_bus : Nat
  slot : Nat
deriving DecidableEq

/-- struct aer_capability_regs: the view cper_print_pcie casts the raw
aer_info bytes to; only the fields it prints are modelled. -/
structure aer_capability_regs where
  uncor_status : Nat
  uncor_mask : Nat
  uncor_severity : Nat
  header_log_dw0 : Nat
  header_log_dw1 : Nat
  header_log_dw2 : Nat
  header_log_dw3 : Nat
deriving DecidableEq

/-- struct cper_sec_pcie: the fields cper.c reads. -/
structure cper_sec_pcie where
  validation_bits : Nat
  port_type : Nat
  version : cper_pcie_version
  command : Nat
  status : Nat
  device_id : cper_pcie_device_id
  serial_number_lower : Nat
  serial_number_upper : Nat
  bridge_secondary_status : Nat
  bridge_control : Nat
  aer_info : aer_capability_regs
deriving DecidableEq

/-- The section-descriptor header struct acpi_generic_data; the
16-byte section_type and fru_id values are modelled as Nat. -/
structure acpi_generic_data where
  section_type : Nat
  error_severity : Nat
  revision : Nat
  validation_bits : Nat
  flags : Nat
  error_data_length : Nat
  fru_id : Nat
  fru_text : String
  timestamp : Nat
deriving DecidableEq

/- ## The three decoders (cper.c:135, 199, 264) -/

/-- Embedding of cper_print_proc_generic (cper.c:135): one printk line
per validation-bit-gated field, in source order; the error_type and
flags masks additionally go through cper_print_bits. -/
def cper_print_proc_generic (pfx : String) (proc : cper_sec_proc_generic) : List Line :=
  (if proc.validation_bits &&& CPER_PROC_VALID_TYPE ≠ 0 then
    [⟨.normal, pfx ++ "processor_type: " ++ toString proc.proc_type ++ ", " ++
      cper_proc_type_strs.getD proc.proc_type "unknown" ++ "\n"⟩] else []) ++
  (if proc.validation_bits &&& CPER_PROC_VALID_ISA ≠ 0 then
    [⟨.normal, pfx ++ "processor_isa: " ++ toString proc.proc_isa ++ ", " ++
      cper_proc_isa_strs.getD proc.proc_isa "unknown" ++ "\n"⟩] else []) ++
  (if proc.validation_bits &&& CPER_PROC_VALID_ERROR_TYPE ≠ 0 then
    ⟨.normal, pfx ++ "error_type: 0x" ++ hexPad 2 proc.proc_error_type ++ "\n"⟩ ::
    (cper_print_bits pfx proc.proc_error_type cper_proc_error_type_strs).map
      (fun l => ⟨.normal, l ++ "\n"⟩) else []) ++
  (if proc.validation_bits &&& CPER_PROC_VALID_OPERATION ≠ 0 then
    [⟨.normal, pfx ++ "operation: " ++ toString proc.operation ++ ", " ++
      cper_proc_op_strs.getD proc.operation "unknown" ++ "\n"⟩] else []) ++
  (if proc.validation_bits &&& CPER_PROC_VALID_FLAGS ≠ 0 then
    ⟨.normal, pfx ++ "flags: 0x" ++ hexPad 2 proc.flags ++ "\n"⟩ ::
    (cper_print_bits pfx proc.flags cper_proc_flag_strs).map
      (fun l => ⟨.normal, l ++ "\n"⟩) else []) ++
  (if proc.validation_bits &&& CPER_PROC_VALID_LEVEL ≠ 0 then
    [⟨.normal, pfx ++ "level: " ++ toString proc.level ++ "\n"⟩] else []) ++
  (if proc.validation_bits &&& CPER_PROC_VALID_VERSION ≠ 0 then
    [⟨.normal, pfx ++ "version_info: 0x" ++ hexPad 16 proc.cpu_version ++ "\n"⟩] else []) ++
  (if proc.validation_bits &&& CPER_PROC_VALID_ID ≠ 0 then
    [⟨.normal, pfx ++ "processor_id: 0x" ++ hexPad 16 proc.proc_id ++ "\n"⟩] else []) ++
  (if proc.validation_bits &&& CPER_PROC_VALID_TARGET_ADDRESS ≠ 0 then
    [⟨.normal, pfx ++ "target_address: 0x" ++ hexPad 16 proc.target_addr ++ "\n"⟩] else []) ++
  (if proc.validation_bits &&& CPER_PROC_VALID_REQUESTOR_ID ≠ 0 then
    [⟨.normal, pfx ++ "requestor_id: 0x" ++ hexPad 16 proc.requestor_id ++ "\n"⟩] else []) ++
  (if proc.validation_bits &&& CPER_PROC_VALID_RESPONDER_ID ≠ 0 then
    [⟨.normal, pfx ++ "responder_id: 0x" ++ hexPad 16 proc.responder_id ++ "\n"⟩] else []) ++
  (if proc.validation_bits &&& CPER_PROC_VALID_IP ≠ 0 then
    [⟨.normal, pfx ++ "IP: 0x" ++ hexPad 16 proc.ip ++ "\n"⟩] else [])

/-- Embedding of cper_print_mem (cper.c:199).  dmi models the external
dmi_memdev_name lookup: some (bank, device) when both names resolve.
Note the two DIMM printk lines (cper.c:243, 245) carry no trailing
newline in the source, and the twelve pr_debug lines carry no pfx. -/
def cper_print_mem (dmi : Nat → Option (String × String)) (pfx : String)
    (mem : cper_sec_mem_err) : List Line :=
  (if mem.validation_bits &&& CPER_MEM_VALID_ERROR_STATUS ≠ 0 then
    [⟨.normal, pfx ++ "error_status: 0x" ++ hexPad 16 mem.error_status ++ "\n"⟩] else []) ++
  (if mem.validation_bits &&& CPER_MEM_VALID_PA ≠ 0 then
    [⟨.normal, pfx ++ "physical_address: 0x" ++ hexPad 16 mem.physical_addr ++ "\n"⟩] else []) ++
  (if mem.validation_bits &&& CPER_MEM_VALID_PA_MASK ≠ 0 then
    [⟨.normal, pfx ++ "physical_address_mask: 0x" ++ hexPad 16 mem.physical_addr_mask ++ "\n"⟩]
   else []) ++
  (if mem.validation_bits &&& CPER_MEM_VALID_NODE ≠ 0 then
    [⟨.debug, "node: " ++ toString mem.node ++ "\n"⟩] else []) ++
  (if mem.validation_bits &&& CPER_MEM_VALID_CARD ≠ 0 then
    [⟨.debug, "card: " ++ toString mem.card ++ "\n"⟩] else []) ++
  (if mem.validation_bits &&& CPER_MEM_VALID_MODULE ≠ 0 then
    [⟨.debug, "module: " ++ toString mem.module ++ "\n"⟩] else []) ++
  (if mem.validation_bits &&& CPER_MEM_VALID_RANK_NUMBER ≠ 0 then
    [⟨.debug, "rank: " ++ toString mem.rank ++ "\n"⟩] else []) ++
  (if mem.validation_bits &&& CPER_MEM_VALID_BANK ≠ 0 then
    [⟨.debug, "bank: " ++ toString mem.bank ++ "\n"⟩] else []) ++
  (if mem.validation_bits &&& CPER_MEM_VALID_DEVICE ≠ 0 then
    [⟨.debug, "device: " ++ toString mem.device ++ "\n"⟩] else []) ++
  (if mem.validation_bits &&& CPER_MEM_VALID_ROW ≠ 0 then
    [⟨.debug, "row: " ++ toString mem.row ++ "\n"⟩] else []) ++
  (if mem.validation_bits &&& CPER_MEM_VALID_COLUMN ≠ 0 then
    [⟨.debug, "column: " ++ toString mem.column ++ "\n"⟩] else []) ++
  (if mem.validation_bits &&& CPER_MEM_VALID_BIT_POSITION ≠ 0 then
    [⟨.debug, "bit_position: " ++ toString mem.bit_pos ++ "\n"⟩] else []) ++
  (if mem.validation_bits &&& CPER_MEM_VALID_REQUESTOR_ID ≠ 0 then
    [⟨.debug, "requestor_id: 0x" ++ hexPad 16 mem.requestor_id ++ "\n"⟩] else []) ++
  (if mem.validation_bits &&& CPER_MEM_VALID_RESPONDER_ID ≠ 0 then
    [⟨.debug, "responder_id: 0x" ++ hexPad 16 mem.responder_id ++ "\n"⟩] else []) ++
  (if mem.validation_bits &&& CPER_MEM_VALID_TARGET_ID ≠ 0 then
    [⟨.debug, "target_id: 0x" ++ hexPad 16 mem.target_id ++ "\n"⟩] else []) ++
  (if mem.validation_bits &&& CPER_MEM_VALID_ERROR_TYPE ≠ 0 then
    [⟨.normal, pfx ++ "error_type: " ++ toString mem.error_type ++ ", " ++
      cper_mem_err_type_strs.getD mem.error_type "unknown" ++ "\n"⟩] else []) ++
  (if mem.validation_bits &&& CPER_MEM_VALID_MODULE_HANDLE ≠ 0 then
    (match dmi mem.mem_dev_handle with
     | some (bank, device) =>
       [⟨.normal, pfx ++ "DIMM location: " ++ bank ++ " " ++ device⟩]
     | none =>
       [⟨.normal, pfx ++ "DIMM DMI handle: 0x" ++ hexPad 4 mem.mem_dev_handle⟩]) else [])

/-- Embedding of cper_print_pcie (cper.c:264).  The raw AER register
block is printed when the AER-info validation bit is set and the
section descriptor's error_severity has the CPER_SEV_FATAL bit set
(the C test is a bitwise and with CPER_SEV_FATAL = 1). -/
def cper_print_pcie (pfx : String) (pcie : cper_sec_pcie) (gdata : acpi_generic_data) :
    List Line :=
  (if pcie.validation_bits &&& CPER_PCIE_VALID_PORT_TYPE ≠ 0 then
    [⟨.normal, pfx ++ "port_type: " ++ toString pcie.port_type ++ ", " ++
      cper_pcie_port_type_strs.getD pcie.port_type "unknown" ++ "\n"⟩] else []) ++
  (if pcie.validation_bits &&& CPER_PCIE_VALID_VERSION ≠ 0 then
    [⟨.normal, pfx ++ "version: " ++ toString pcie.version.major ++ "." ++
      toString pcie.version.minor ++ "\n"⟩] else []) ++
  (if pcie.validation_bits &&& CPER_PCIE_VALID_COMMAND_STATUS ≠ 0 then
    [⟨.normal, pfx ++ "command: 0x" ++ hexPad 4 pcie.command ++ ", status: 0x" ++
      hexPad 4 pcie.status ++ "\n"⟩] else []) ++
  (if pcie.validation_bits &&& CPER_PCIE_VALID_DEVICE_ID ≠ 0 then
    [⟨.normal, pfx ++ "device_id: " ++ hexPad 4 pcie.device_id.segment ++ ":" ++
      hexPad 2 pcie.device_id.bus ++ ":" ++ hexPad 2 pcie.device_id.device ++ "." ++
      hexPad 1 pcie.device_id.function ++ "\n"⟩,
     ⟨.normal, pfx ++ "slot: " ++ toString (pcie.device_id.slot >>> CPER_PCIE_SLOT_SHIFT) ++
      "\n"⟩,
     ⟨.normal, pfx ++ "secondary_bus: 0x" ++ hexPad 2 pcie.device_id.secondary_bus ++ "\n"⟩,
     ⟨.normal, pfx ++ "vendor_id: 0x" ++ hexPad 4 pcie.device_id.vendor_id ++
      ", device_id: 0x" ++ hexPad 4 pcie.device_id.device_id ++ "\n"⟩,
     ⟨.normal, pfx ++ "class_code: " ++ hexPad 2 pcie.device_id.class_code0 ++
      hexPad 2 pcie.device_id.class_code1 ++ hexPad 2 pcie.device_id.class_code2 ++ "\n"⟩]
   else []) ++
  (if pcie.validation_bits &&& CPER_PCIE_VALID_SERIAL_NUMBER ≠ 0 then
    [⟨.normal, pfx ++ "serial number: 0x" ++ hexPad 4 pcie.serial_number_lower ++
      ", 0x" ++ hexPad 4 pcie.serial_number_upper ++ "\n"⟩] else []) ++
  (if pcie.validation_bits &&& CPER_PCIE_VALID_BRIDGE_CONTROL_STATUS ≠ 0 then
    [⟨.normal, pfx ++ "bridge: secondary_status: 0x" ++
      hexPad 4 pcie.bridge_secondary_status ++ ", control: 0x" ++
      hexPad 4 pcie.bridge_control ++ "\n"⟩] else []) ++
  (if pcie.validation_bits &&& CPER_PCIE_VALID_AER_INFO ≠ 0 ∧
      gdata.error_severity &&& CPER_SEV_FATAL ≠ 0 then
    [⟨.normal, pfx ++ "aer_uncor_status: 0x" ++ hexPad 8 pcie.aer_info.uncor_status ++
      ", aer_uncor_mask: 0x" ++ hexPad 8 pcie.aer_info.uncor_mask ++ "\n"⟩,
     ⟨.normal, pfx ++ "aer_uncor_severity: 0x" ++ hexPad 8 pcie.aer_info.uncor_severity ++
      "\n"⟩,
     ⟨.normal, pfx ++ "TLP Header: " ++ hexPad 8 pcie.aer_info.header_log_dw0 ++ " " ++
      hexPad 8 pcie.aer_info.header_log_dw1 ++ " " ++
      hexPad 8 pcie.aer_info.header_log_dw2 ++ " " ++
      hexPad 8 pcie.aer_info.header_log_dw3 ++ "\n"⟩] else [])

/- ## cper_estatus_print_section and cper_estatus_print (cper.c:315, 361) -/

/-- One section as it sits in memory: the descriptor header plus the
three possible typed views of the payload bytes that follow it (the C
code reinterprets the same bytes as whichever struct the dispatch
picks). -/
structure CperSection where
  gdata : acpi_generic_data
  proc : cper_sec_proc_generic
  mem : cper_sec_mem_err
  pcie : cper_sec_pcie

/-- The header lines printed by cper_estatus_print_section before the
type dispatch (cper.c:322-328): severity plus gated fru_id/fru_text.
The local `__u16 severity = gdata->error_severity` (cper.c:319, 322)
truncates the 32-bit descriptor field to 16 bits, hence the mod 2^16;
fru_text is printed with %.20s, i.e. at most 20 characters. -/
def cper_section_header_lines (pfx : String) (gdata : acpi_generic_data) (sec_no : Nat) :
    List Line :=
  [⟨.normal, pfx ++ "Error " ++ toString sec_no ++ ", type: " ++
    cper_severity_str (gdata.error_severity % 2 ^ 16) ++ "\n"⟩] ++
  (if gdata.validation_bits &&& CPER_SEC_VALID_FRU_ID ≠ 0 then
    [⟨.normal, pfx ++ "fru_id: " ++ pUl gdata.fru_id ++ "\n"⟩] else []) ++
  (if gdata.validation_bits &&& CPER_SEC_VALID_FRU_TEXT ≠ 0 then
    [⟨.normal, pfx ++ "fru_text: " ++ strTake gdata.fru_text 20 ++ "\n"⟩] else [])

/-- The pr_err diagnostic of the err_section_too_small label
(cper.c:357-358). -/
def errSectionTooSmallLine : Line :=
  ⟨.err, FW_WARN ++ "error section length is too small\n"⟩

/-- Embedding of cper_estatus_print_section (cper.c:315): header lines,
then dispatch on the 16-byte section type; each recognized decoder runs
only if error_data_length is at least its fixed struct size, otherwise
only the too-small diagnostic is emitted; an unrecognized type prints
the unknown-type line.  newpfx is pfx plus INDENT_SP, truncated to the
63 characters the 64-byte stack buffer can hold. -/
def cper_estatus_print_section (dmi : Nat → Option (String × String)) (pfx : String)
    (s : CperSection) (sec_no : Nat) : List Line :=
  cper_section_header_lines pfx s.gdata sec_no ++
  (let newpfx := strTake (pfx ++ INDENT_SP) 63
   if s.gdata.section_type = CPER_SEC_PROC_GENERIC then
     ⟨.normal, newpfx ++ "section_type: general processor error\n"⟩ ::
     (if sizeof_cper_sec_proc_generic ≤ s.gdata.error_data_length then
       cper_print_proc_generic newpfx s.proc
      else [errSectionTooSmallLine])
   else if s.gdata.section_type = CPER_SEC_PLATFORM_MEM then
     ⟨.normal, newpfx ++ "section_type: memory error\n"⟩ ::
     (if sizeof_cper_sec_mem_err ≤ s.gdata.error_data_length then
       cper_print_mem dmi newpfx s.mem
      else [errSectionTooSmallLine])
   else if s.gdata.section_type = CPER_SEC_PCIE then
     ⟨.normal, newpfx ++ "section_type: PCIe error\n"⟩ ::
     (if sizeof_cper_sec_pcie ≤ s.gdata.error_data_length then
       cper_print_pcie newpfx s.pcie s.gdata
      else [errSectionTooSmallLine])
   else
     [⟨.normal, newpfx ++ "section type: unknown, " ++ pUl s.gdata.section_type ++ "\n"⟩])

/-- The u32 wrap-around subtraction a - b as the C line
data_len -= gedata_len + sizeof(*gdata) computes it when b > a
(64-bit intermediate, truncated to 32 bits on assignment). -/
def wrapSub32 (a b : Nat) : Nat := (((a : Int) - (b : Int)) % (2 ^ 32 : Int)).toNat

theorem wrapSub32_of_le (a b : Nat) (hba : b ≤ a) (ha : a < 2 ^ 32) :
    wrapSub32 a b = a - b := by
  unfold wrapSub32
  rw [Int.emod_eq_of_lt (by omega) (by push_cast; omega)]
  omega

/-- Embedding of the while loop of cper_estatus_print (cper.c:379-385):
walks the descriptor list by the declared error_data_length of each
descriptor, printing every section it passes; there is no truncation
check here, so the length arithmetic can wrap (wrapSub32) — the
function is therefore given fuel, and none models the walk not
finishing within the fuel (the C code would over-read).  secAt gives
the section that starts at a given byte offset of the data area. -/
def cper_estatus_print_loop (dmi : Nat → Option (String × String))
    (secAt : Nat → CperSection) (newpfx : String) :
    Nat → Nat → Nat → Nat → Option (List Line)
  | 0, _, _, _ => none
  | fuel+1, off, data_len, sec_no =>
    if sizeof_acpi_generic_data ≤ data_len then
      let gedata_len := (secAt off).gdata.error_data_length
      match cper_estatus_print_loop dmi secAt newpfx fuel
        (off + sizeof_acpi_generic_data + gedata_len)
        (wrapSub32 data_len (gedata_len + sizeof_acpi_generic_data)) (sec_no + 1) with
      | none => none
      | some rest =>
        some (cper_estatus_print_section dmi newpfx (secAt off) sec_no ++ rest)
    else some []

/-- Embedding of cper_estatus_print (cper.c:361): the severity header
lines, then the section walk (with fuel data_length + 1, which always
suffices on validated input).  The local `__u16 severity =
estatus->error_severity` (cper.c:368, 370) truncates the 32-bit header
field to 16 bits before the CPER_SEV_CORRECTED test and the severity
string, hence the mod 2^16. -/
def cper_estatus_print (dmi : Nat → Option (String × String)) (pfx : String)
    (estatus : acpi_generic_status) (secAt : Nat → CperSection) : Option (List Line) :=
  match cper_estatus_print_loop dmi secAt (strTake (pfx ++ INDENT_SP) 63)
    (estatus.data_length + 1) 0 estatus.data_length 0 with
  | none => none
  | some body =>
    some ((if estatus.error_severity % 2 ^ 16 = CPER_SEV_CORRECTED then
      [⟨.normal, pfx ++ "It has been corrected by h/w and requires no further action\n"⟩]
     else []) ++
     [⟨.normal, pfx ++ "event severity: " ++
       cper_severity_str (estatus.error_severity % 2 ^ 16) ++ "\n"⟩]
     ++ body)

/-- The lines the walk of cper_estatus_print emits for a descriptor
area laid out as the list ls of error_data_length values starting at a
given offset and section number. -/
def renderSections (dmi : Nat → Option (String × String)) (secAt : Nat → CperSection)
    (newpfx : String) : List Nat → Nat → Nat → List Line
  | [], _, _ => []
  | l :: ls, off, sec_no =>
    cper_estatus_print_section dmi newpfx (secAt off) sec_no ++
    renderSections dmi secAt newpfx ls (off + sizeof_acpi_generic_data + l) (sec_no + 1)

theorem consumedLen_length_le (ls : List Nat) : ls.length ≤ consumedLen ls := by
  induction ls with
  | nil => simp [consumedLen]
  | cons l ls ih =>
    simp only [consumedLen, List.length_cons]
    have hsz : sizeof_acpi_generic_data = 72 := rfl
    omega

theorem cper_estatus_print_loop_spec (dmi : Nat → Option (String × String))
    (secAt : Nat → CperSection) (newpfx : String) :
    ∀ (ls : List Nat) (off sec_no fuel : Nat),
      LaysOut (fun o => (secAt o).gdata.error_data_length) off ls →
      consumedLen ls < 2 ^ 32 →
      ls.length < fuel →
      cper_estatus_print_loop dmi secAt newpfx fuel off (consumedLen ls) sec_no =
        some (renderSections dmi secAt newpfx ls off sec_no) := by
  have hsz : sizeof_acpi_generic_data = 72 := rfl
  intro ls
  induction ls with
  | nil =>
    intro off sec_no fuel _ _ hfuel
    match fuel, hfuel with
    | f + 1, _ =>
      simp only [cper_estatus_print_loop, consumedLen, renderSections]
      rw [if_neg (by omega)]
  | cons l ls ih =>
    intro off sec_no fuel hlay hlt hfuel
    obtain ⟨hl, hrest⟩ := hlay
    match fuel, hfuel with
    | f + 1, hfuel =>
      simp only [cper_estatus_print_loop]
      rw [if_pos (by simp only [consumedLen]; omega)]
      simp only [hl]
      have hwrap : wrapSub32 (consumedLen (l :: ls)) (l + sizeof_acpi_generic_data) =
          consumedLen ls := by
        rw [wrapSub32_of_le _ _ (by simp only [consumedLen]; omega) hlt]
        simp only [consumedLen]
        omega
      rw [hwrap]
      rw [ih (off + sizeof_acpi_generic_data + l) (sec_no + 1) f hrest
        (by simp only [consumedLen] at hlt; omega) (by simp at hfuel; omega)]
      rfl

/- ## Concrete sample payloads for witnesses and counterexamples -/

/-- All-zero processor-generic payload. -/
def procZero : cper_sec_proc_generic := ⟨0, 0, 0, 0, 0, 0, 0, 0, "", 0, 0, 0, 0, 0⟩

/-- All-zero memory payload. -/
def memZero : cper_sec_mem_err := ⟨0, 0, 0, 0, 0, 0, 0, 0, 0, 0, 0, 0, 0, 0, 0, 0, 0, 0, 0⟩

/-- All-zero PCIe payload. -/
def pcieZero : cper_sec_pcie :=
  ⟨0, 0, ⟨0, 0⟩, 0, 0, ⟨0, 0, 0, 0, 0, 0, 0, 0, 0, 0, 0⟩, 0, 0, 0, 0, ⟨0, 0, 0, 0, 0, 0, 0⟩⟩

/-- PCIe payload with only the AER-info validation bit set. -/
def pcieAER : cper_sec_pcie :=
  ⟨0x80, 0, ⟨0, 0⟩, 0, 0, ⟨0, 0, 0, 0, 0, 0, 0, 0, 0, 0, 0⟩, 0, 0, 0, 0, ⟨0, 0, 0, 0, 0, 0, 0⟩⟩

/-- Section descriptor with severity fatal (1). -/
def gdFatal : acpi_generic_data := ⟨0, 1, 0, 0, 0, 0, 0, "", 0⟩

/-- Section descriptor with severity informational (3). -/
def gdInfo : acpi_generic_data := ⟨0, 3, 0, 0, 0, 0, 0, "", 0⟩

/- ## Claim C4 -/

/-- C4 counterexample: a PCIe section with the AER-info bit set inside
a descriptor of severity 3 (informational, not fatal) still gets its
raw AER register block rendered, because the C test is a bitwise and
with CPER_SEV_FATAL = 1 rather than an equality: 3 &&& 1 is nonzero.
This refutes the claim that the block is rendered for no severity value
other than fatal (1). -/
theorem c4_counterexample :
    gdInfo.error_severity ≠ CPER_SEV_FATAL ∧
    Line.mk LogLevel.normal "aer_uncor_severity: 0x00000000\n" ∈
      cper_print_pcie "" pcieAER gdInfo := by
  constructor
  · decide
  · decide

/-- C4 (amended): the raw AER register block is rendered exactly when
the AER-info validation bit is set and bit 0 (CPER_SEV_FATAL) of the
section descriptor's error_severity is set — so for severity fatal (1)
but also for any other odd severity value such as informational (3);
when the condition fails the output is exactly that of a
zero-severity descriptor (the AER fields are never read). -/
theorem c4_pcie_aer_fatal_bit (pfx : String) (pcie : cper_sec_pcie)
    (gdata : acpi_generic_data) :
    (pcie.validation_bits &&& CPER_PCIE_VALID_AER_INFO ≠ 0 ∧
        gdata.error_severity &&& CPER_SEV_FATAL ≠ 0 →
      cper_print_pcie pfx pcie gdata =
        cper_print_pcie pfx pcie { gdata with error_severity := 0 } ++
        [⟨.normal, pfx ++ "aer_uncor_status: 0x" ++ hexPad 8 pcie.aer_info.uncor_status ++
          ", aer_uncor_mask: 0x" ++ hexPad 8 pcie.aer_info.uncor_mask ++ "\n"⟩,
         ⟨.normal, pfx ++ "aer_uncor_severity: 0x" ++
          hexPad 8 pcie.aer_info.uncor_severity ++ "\n"⟩,
         ⟨.normal, pfx ++ "TLP Header: " ++ hexPad 8 pcie.aer_info.header_log_dw0 ++ " " ++
          hexPad 8 pcie.aer_info.header_log_dw1 ++ " " ++
          hexPad 8 pcie.aer_info.header_log_dw2 ++ " " ++
          hexPad 8 pcie.aer_info.header_log_dw3 ++ "\n"⟩]) ∧
    (¬ (pcie.validation_bits &&& CPER_PCIE_VALID_AER_INFO ≠ 0 ∧
        gdata.error_severity &&& CPER_SEV_FATAL ≠ 0) →
      cper_print_pcie pfx pcie gdata =
        cper_print_pcie pfx pcie { gdata with error_severity := 0 }) := by
  have hz : ∀ p : cper_sec_pcie, ¬ (p.validation_bits &&& CPER_PCIE_VALID_AER_INFO ≠ 0 ∧
      ({ gdata with error_severity := 0 } : acpi_generic_data).error_severity &&&
        CPER_SEV_FATAL ≠ 0) := by
    intro p hc
    apply hc.2
    simp
  constructor
  · intro hc
    simp only [cper_print_pcie]
    rw [if_pos hc, if_neg (hz pcie)]
    simp only [List.append_nil, List.append_assoc]
  · intro hc
    simp only [cper_print_pcie]
    rw [if_neg hc, if_neg (hz pcie)]

/-- Concrete instance of C4 (amended): with a fatal-severity
descriptor the AER block of an all-zero AER register set is appended. -/
theorem c4_pcie_aer_fatal_bit_witness :
    cper_print_pcie "" pcieAER gdFatal =
      cper_print_pcie "" pcieAER { gdFatal with error_severity := 0 } ++
      [⟨.normal, "" ++ "aer_uncor_status: 0x" ++ hexPad 8 pcieAER.aer_info.uncor_status ++
        ", aer_uncor_mask: 0x" ++ hexPad 8 pcieAER.aer_info.uncor_mask ++ "\n"⟩,
       ⟨.normal, "" ++ "aer_uncor_severity: 0x" ++
        hexPad 8 pcieAER.aer_info.uncor_severity ++ "\n"⟩,
       ⟨.normal, "" ++ "TLP Header: " ++ hexPad 8 pcieAER.aer_info.header_log_dw0 ++ " " ++
        hexPad 8 pcieAER.aer_info.header_log_dw1 ++ " " ++
        hexPad 8 pcieAER.aer_info.header_log_dw2 ++ " " ++
        hexPad 8 pcieAER.aer_info.header_log_dw3 ++ "\n"⟩] :=
  (c4_pcie_aer_fatal_bit "" pcieAER gdFatal).1 (by decide)

/- ## Claim C8 -/

/-- C8: the spec requires every logical field to be one
newline-terminated line "<prefix><field_name>: <value>".  The DIMM
location printk of cper_print_mem (cper.c:243, and likewise the DIMM
DMI handle printk at cper.c:245) omits the trailing newline, which is a
slip in the code: every other field printk in the file ends in a
newline, and without one the next printk's output is glued onto this
line.  Evaluating the embedded code on a memory section with only the
module-handle bit set and a resolvable handle shows the emitted line
does not end with a newline. -/
theorem c8_dimm_line_missing_newline :
    cper_print_mem (fun h => if h = 7 then some ("BANK0", "DEV2") else none) "pfx "
      ⟨0x20000, 0, 0, 0, 0, 0, 0, 0, 0, 0, 0, 0, 0, 0, 0, 0, 0, 0, 7⟩ =
      [⟨.normal, "pfx DIMM location: BANK0 DEV2"⟩] ∧
    "pfx DIMM location: BANK0 DEV2".data.getLast? ≠ some '\n' := by
  constructor
  · decide
  · decide

/- ## Claim C5 -/

theorem app_congr {α : Type} {l1 l2 r1 r2 : List α} (h1 : l1 = l2) (h2 : r1 = r2) :
    l1 ++ r1 = l2 ++ r2 := by
  rw [h1, h2]

theorem gate_congr {c : Prop} [Decidable c] {α : Type} {l1 l2 : List α}
    (h : c → l1 = l2) : (if c then l1 else []) = (if c then l2 else []) := by
  by_cases hc : c
  · rw [if_pos hc, if_pos hc, h hc]
  · rw [if_neg hc, if_neg hc]

/-- C5: in each decoder every optional field is read only under its own
validation bit: two payloads that agree on validation_bits and on every
field whose bit is set render identically, whatever the values of the
fields whose bits are unset — so an unset-bit field is never read and
contributes no line. -/
theorem c5_unset_bits_never_read :
    (∀ (pfx : String) (p p' : cper_sec_proc_generic),
      p'.validation_bits = p.validation_bits →
      (p.validation_bits &&& CPER_PROC_VALID_TYPE ≠ 0 → p'.proc_type = p.proc_type) →
      (p.validation_bits &&& CPER_PROC_VALID_ISA ≠ 0 → p'.proc_isa = p.proc_isa) →
      (p.validation_bits &&& CPER_PROC_VALID_ERROR_TYPE ≠ 0 →
        p'.proc_error_type = p.proc_error_type) →
      (p.validation_bits &&& CPER_PROC_VALID_OPERATION ≠ 0 → p'.operation = p.operation) →
      (p.validation_bits &&& CPER_PROC_VALID_FLAGS ≠ 0 → p'.flags = p.flags) →
      (p.validation_bits &&& CPER_PROC_VALID_LEVEL ≠ 0 → p'.level = p.level) →
      (p.validation_bits &&& CPER_PROC_VALID_VERSION ≠ 0 → p'.cpu_version = p.cpu_version) →
      (p.validation_bits &&& CPER_PROC_VALID_ID ≠ 0 → p'.proc_id = p.proc_id) →
      (p.validation_bits &&& CPER_PROC_VALID_TARGET_ADDRESS ≠ 0 →
        p'.target_addr = p.target_addr) →
      (p.validation_bits &&& CPER_PROC_VALID_REQUESTOR_ID ≠ 0 →
        p'.requestor_id = p.requestor_id) →
      (p.validation_bits &&& CPER_PROC_VALID_RESPONDER_ID ≠ 0 →
        p'.responder_id = p.responder_id) →
      (p.validation_bits &&& CPER_PROC_VALID_IP ≠ 0 → p'.ip = p.ip) →
      cper_print_proc_generic pfx p' = cper_print_proc_generic pfx p) ∧
    (∀ (dmi : Nat → Option (String × String)) (pfx : String) (m m' : cper_sec_mem_err),
      m'.validation_bits = m.validation_bits →
      (m.validation_bits &&& CPER_MEM_VALID_ERROR_STATUS ≠ 0 →
        m'.error_status = m.error_status) →
      (m.validation_bits &&& CPER_MEM_VALID_PA ≠ 0 → m'.physical_addr = m.physical_addr) →
      (m.validation_bits &&& CPER_MEM_VALID_PA_MASK ≠ 0 →
        m'.physical_addr_mask = m.physical_addr_mask) →
      (m.validation_bits &&& CPER_MEM_VALID_NODE ≠ 0 → m'.node = m.node) →
      (m.validation_bits &&& CPER_MEM_VALID_CARD ≠ 0 → m'.card = m.card) →
      (m.validation_bits &&& CPER_MEM_VALID_MODULE ≠ 0 → m'.module = m.module) →
      (m.validation_bits &&& CPER_MEM_VALID_RANK_NUMBER ≠ 0 → m'.rank = m.rank) →
      (m.validation_bits &&& CPER_MEM_VALID_BANK ≠ 0 → m'.bank = m.bank) →
      (m.validation_bits &&& CPER_MEM_VALID_DEVICE ≠ 0 → m'.device = m.device) →
      (m.validation_bits &&& CPER_MEM_VALID_ROW ≠ 0 → m'.row = m.row) →
      (m.validation_bits &&& CPER_MEM_VALID_COLUMN ≠ 0 → m'.column = m.column) →
      (m.validation_bits &&& CPER_MEM_VALID_BIT_POSITION ≠ 0 → m'.bit_pos = m.bit_pos) →
      (m.validation_bits &&& CPER_MEM_VALID_REQUESTOR_ID ≠ 0 →
        m'.requestor_id = m.requestor_id) →
      (m.validation_bits &&& CPER_MEM_VALID_RESPONDER_ID ≠ 0 →
        m'.responder_id = m.responder_id) →
      (m.validation_bits &&& CPER_MEM_VALID_TARGET_ID ≠ 0 → m'.target_id = m.target_id) →
      (m.validation_bits &&& CPER_MEM_VALID_ERROR_TYPE ≠ 0 → m'.error_type = m.error_type) →
      (m.validation_bits &&& CPER_MEM_VALID_MODULE_HANDLE ≠ 0 →
        m'.mem_dev_handle = m.mem_dev_handle) →
      cper_print_mem dmi pfx m' = cper_print_mem dmi pfx m) ∧
    (∀ (pfx : String) (gdata : acpi_generic_data) (p p' : cper_sec_pcie),
      p'.validation_bits = p.validation_bits →
      (p.validation_bits &&& CPER_PCIE_VALID_PORT_TYPE ≠ 0 → p'.port_type = p.port_type) →
      (p.validation_bits &&& CPER_PCIE_VALID_VERSION ≠ 0 → p'.version = p.version) →
      (p.validation_bits &&& CPER_PCIE_VALID_COMMAND_STATUS ≠ 0 →
        p'.command = p.command ∧ p'.status = p.status) →
      (p.validation_bits &&& CPER_PCIE_VALID_DEVICE_ID ≠ 0 → p'.device_id = p.device_id) →
      (p.validation_bits &&& CPER_PCIE_VALID_SERIAL_NUMBER ≠ 0 →
        p'.serial_number_lower = p.serial_number_lower ∧
        p'.serial_number_upper = p.serial_number_upper) →
      (p.validation_bits &&& CPER_PCIE_VALID_BRIDGE_CONTROL_STATUS ≠ 0 →
        p'.bridge_secondary_status = p.bridge_secondary_status ∧
        p'.bridge_control = p.bridge_control) →
      (p.validation_bits &&& CPER_PCIE_VALID_AER_INFO ≠ 0 → p'.aer_info = p.aer_info) →
      cper_print_pcie pfx p' gdata = cper_print_pcie pfx p gdata) := by
  refine ⟨?_, ?_, ?_⟩
  · intro pfx p p' hv h1 h2 h3 h4 h5 h6 h7 h8 h9 h10 h11 h12
    unfold cper_print_proc_generic
    rw [hv]
    refine app_congr ?_ (gate_congr fun hc => by rw [h12 hc])
    refine app_congr ?_ (gate_congr fun hc => by rw [h11 hc])
    refine app_congr ?_ (gate_congr fun hc => by rw [h10 hc])
    refine app_congr ?_ (gate_congr fun hc => by rw [h9 hc])
    refine app_congr ?_ (gate_congr fun hc => by rw [h8 hc])
    refine app_congr ?_ (gate_congr fun hc => by rw [h7 hc])
    refine app_congr ?_ (gate_congr fun hc => by rw [h6 hc])
    refine app_congr ?_ (gate_congr fun hc => by rw [h5 hc])
    refine app_congr ?_ (gate_congr fun hc => by rw [h4 hc])
    refine app_congr ?_ (gate_congr fun hc => by rw [h3 hc])
    refine app_congr ?_ (gate_congr fun hc => by rw [h2 hc])
    exact gate_congr fun hc => by rw [h1 hc]
  · intro dmi pfx m m' hv h1 h2 h3 h4 h5 h6 h7 h8 h9 h10 h11 h12 h13 h14 h15 h16 h17
    unfold cper_print_mem
    rw [hv]
    refine app_congr ?_ (gate_congr fun hc => by rw [h17 hc])
    refine app_congr ?_ (gate_congr fun hc => by rw [h16 hc])
    refine app_congr ?_ (gate_congr fun hc => by rw [h15 hc])
    refine app_congr ?_ (gate_congr fun hc => by rw [h14 hc])
    refine app_congr ?_ (gate_congr fun hc => by rw [h13 hc])
    refine app_congr ?_ (gate_congr fun hc => by rw [h12 hc])
    refine app_congr ?_ (gate_congr fun hc => by rw [h11 hc])
    refine app_congr ?_ (gate_congr fun hc => by rw [h10 hc])
    refine app_congr ?_ (gate_congr fun hc => by rw [h9 hc])
    refine app_congr ?_ (gate_congr fun hc => by rw [h8 hc])
    refine app_congr ?_ (gate_congr fun hc => by rw [h7 hc])
    refine app_congr ?_ (gate_congr fun hc => by rw [h6 hc])
    refine app_congr ?_ (gate_congr fun hc => by rw [h5 hc])
    refine app_congr ?_ (gate_congr fun hc => by rw [h4 hc])
    refine app_congr ?_ (gate_congr fun hc => by rw [h3 hc])
    refine app_congr ?_ (gate_congr fun hc => by rw [h2 hc])
    exact gate_congr fun hc => by rw [h1 hc]
  · intro pfx gdata p p' hv h1 h2 h3 h4 h5 h6 h7
    unfold cper_print_pcie
    rw [hv]
    refine app_congr ?_ (gate_congr fun hc => by rw [h7 hc.1])
    refine app_congr ?_ (gate_congr fun hc => by rw [(h6 hc).1, (h6 hc).2])
    refine app_congr ?_ (gate_congr fun hc => by rw [(h5 hc).1, (h5 hc).2])
    refine app_congr ?_ (gate_congr fun hc => by rw [h4 hc])
    refine app_congr ?_ (gate_congr fun hc => by rw [(h3 hc).1, (h3 hc).2])
    refine app_congr ?_ (gate_congr fun hc => by rw [h2 hc])
    exact gate_congr fun hc => by rw [h1 hc]

/-- Concrete instance of C5: two memory payloads with no validation
bits set, one with node = 1 and one with node = 2, render
identically. -/
theorem c5_unset_bits_never_read_witness :
    cper_print_mem (fun _ => none) ""
      ⟨0, 0, 0, 0, 2, 0, 0, 0, 0, 0, 0, 0, 0, 0, 0, 0, 0, 0, 0⟩ =
    cper_print_mem (fun _ => none) ""
      ⟨0, 0, 0, 0, 1, 0, 0, 0, 0, 0, 0, 0, 0, 0, 0, 0, 0, 0, 0⟩ :=
  c5_unset_bits_never_read.2.1 (fun _ => none) ""
    ⟨0, 0, 0, 0, 1, 0, 0, 0, 0, 0, 0, 0, 0, 0, 0, 0, 0, 0, 0⟩
    ⟨0, 0, 0, 0, 2, 0, 0, 0, 0, 0, 0, 0, 0, 0, 0, 0, 0, 0, 0⟩
    rfl
    (fun h => absurd h (by decide)) (fun h => absurd h (by decide))
    (fun h => absurd h (by decide)) (fun h => absurd h (by decide))
    (fun h => absurd h (by decide)) (fun h => absurd h (by decide))
    (fun h => absurd h (by decide)) (fun h => absurd h (by decide))
    (fun h => absurd h (by decide)) (fun h => absurd h (by decide))
    (fun h => absurd h (by decide)) (fun h => absurd h (by decide))
    (fun h => absurd h (by decide)) (fun h => absurd h (by decide))
    (fun h => absurd h (by decide)) (fun h => absurd h (by decide))
    (fun h => absurd h (by decide))

/- ## Claim C9 -/

/-- True for lines printed with printk into the standard report. -/
def lineIsNormal (l : Line) : Bool :=
  match l.level with
  | LogLevel.normal => true
  | _ => false

/-- True for lines printed with pr_debug into the debug log. -/
def lineIsDebug (l : Line) : Bool :=
  match l.level with
  | LogLevel.debug => true
  | _ => false

theorem cper_print_mem_filter_normal (dmi : Nat → Option (String × String)) (pfx : String)
    (mem : cper_sec_mem_err) :
    (cper_print_mem dmi pfx mem).filter lineIsNormal =
      (if mem.validation_bits &&& CPER_MEM_VALID_ERROR_STATUS ≠ 0 then
        [⟨.normal, pfx ++ "error_status: 0x" ++ hexPad 16 mem.error_status ++ "\n"⟩]
       else []) ++
      (if mem.validation_bits &&& CPER_MEM_VALID_PA ≠ 0 then
        [⟨.normal, pfx ++ "physical_address: 0x" ++ hexPad 16 mem.physical_addr ++ "\n"⟩]
       else []) ++
      (if mem.validation_bits &&& CPER_MEM_VALID_PA_MASK ≠ 0 then
        [⟨.normal, pfx ++ "physical_address_mask: 0x" ++
          hexPad 16 mem.physical_addr_mask ++ "\n"⟩] else []) ++
      (if mem.validation_bits &&& CPER_MEM_VALID_ERROR_TYPE ≠ 0 then
        [⟨.normal, pfx ++ "error_type: " ++ toString mem.error_type ++ ", " ++
          cper_mem_err_type_strs.getD mem.error_type "unknown" ++ "\n"⟩] else []) ++
      (if mem.validation_bits &&& CPER_MEM_VALID_MODULE_HANDLE ≠ 0 then
        (match dmi mem.mem_dev_handle with
         | some (bank, device) =>
           [⟨.normal, pfx ++ "DIMM location: " ++ bank ++ " " ++ device⟩]
         | none =>
           [⟨.normal, pfx ++ "DIMM DMI handle: 0x" ++ hexPad 4 mem.mem_dev_handle⟩])
       else []) := by
  cases hdmi : dmi mem.mem_dev_handle with
  | none =>
    simp [cper_print_mem, hdmi, List.filter_append, apply_ite (List.filter lineIsNormal),
      lineIsNormal]
  | some bd =>
    obtain ⟨b, d⟩ := bd
    simp [cper_print_mem, hdmi, List.filter_append, apply_ite (List.filter lineIsNormal),
      lineIsNormal]

theorem cper_print_mem_filter_debug (dmi : Nat → Option (String × String)) (pfx : String)
    (mem : cper_sec_mem_err) :
    (cper_print_mem dmi pfx mem).filter lineIsDebug =
      (if mem.validation_bits &&& CPER_MEM_VALID_NODE ≠ 0 then
        [⟨.debug, "node: " ++ toString mem.node ++ "\n"⟩] else []) ++
      (if mem.validation_bits &&& CPER_MEM_VALID_CARD ≠ 0 then
        [⟨.debug, "card: " ++ toString mem.card ++ "\n"⟩] else []) ++
      (if mem.validation_bits &&& CPER_MEM_VALID_MODULE ≠ 0 then
        [⟨.debug, "module: " ++ toString mem.module ++ "\n"⟩] else []) ++
      (if mem.validation_bits &&& CPER_MEM_VALID_RANK_NUMBER ≠ 0 then
        [⟨.debug, "rank: " ++ toString mem.rank ++ "\n"⟩] else []) ++
      (if mem.validation_bits &&& CPER_MEM_VALID_BANK ≠ 0 then
        [⟨.debug, "bank: " ++ toString mem.bank ++ "\n"⟩] else []) ++
      (if mem.validation_bits &&& CPER_MEM_VALID_DEVICE ≠ 0 then
        [⟨.debug, "device: " ++ toString mem.device ++ "\n"⟩] else []) ++
      (if mem.validation_bits &&& CPER_MEM_VALID_ROW ≠ 0 then
        [⟨.debug, "row: " ++ toString mem.row ++ "\n"⟩] else []) ++
      (if mem.validation_bits &&& CPER_MEM_VALID_COLUMN ≠ 0 then
        [⟨.debug, "column: " ++ toString mem.column ++ "\n"⟩] else []) ++
      (if mem.validation_bits &&& CPER_MEM_VALID_BIT_POSITION ≠ 0 then
        [⟨.debug, "bit_position: " ++ toString mem.bit_pos ++ "\n"⟩] else []) ++
      (if mem.validation_bits &&& CPER_MEM_VALID_REQUESTOR_ID ≠ 0 then
        [⟨.debug, "requestor_id: 0x" ++ hexPad 16 mem.requestor_id ++ "\n"⟩] else []) ++
      (if mem.validation_bits &&& CPER_MEM_VALID_RESPONDER_ID ≠ 0 then
        [⟨.debug, "responder_id: 0x" ++ hexPad 16 mem.responder_id ++ "\n"⟩] else []) ++
      (if mem.validation_bits &&& CPER_MEM_VALID_TARGET_ID ≠ 0 then
        [⟨.debug, "target_id: 0x" ++ hexPad 16 mem.target_id ++ "\n"⟩] else []) := by
  cases hdmi : dmi mem.mem_dev_handle with
  | none =>
    simp [cper_print_mem, hdmi, List.filter_append, apply_ite (List.filter lineIsDebug),
      lineIsDebug]
  | some bd =>
    obtain ⟨b, d⟩ := bd
    simp [cper_print_mem, hdmi, List.filter_append, apply_ite (List.filter lineIsDebug),
      lineIsDebug]

/-- C9: the standard (printk) part of cper_print_mem consists of
exactly the gated error_status, physical_address,
physical_address_mask, error_type and DIMM location/handle lines, each
carrying the caller's prefix; the node, card, module, rank, bank,
device, row, column, bit_position, requestor_id, responder_id and
target_id fields are emitted only as debug-level lines that carry no
prefix (the debug output is the same for every prefix). -/
theorem c9_mem_debug_only_fields (dmi : Nat → Option (String × String)) (pfx : String)
    (mem : cper_sec_mem_err) :
    (cper_print_mem dmi pfx mem).filter lineIsNormal =
      (if mem.validation_bits &&& CPER_MEM_VALID_ERROR_STATUS ≠ 0 then
        [⟨.normal, pfx ++ "error_status: 0x" ++ hexPad 16 mem.error_status ++ "\n"⟩]
       else []) ++
      (if mem.validation_bits &&& CPER_MEM_VALID_PA ≠ 0 then
        [⟨.normal, pfx ++ "physical_address: 0x" ++ hexPad 16 mem.physical_addr ++ "\n"⟩]
       else []) ++
      (if mem.validation_bits &&& CPER_MEM_VALID_PA_MASK ≠ 0 then
        [⟨.normal, pfx ++ "physical_address_mask: 0x" ++
          hexPad 16 mem.physical_addr_mask ++ "\n"⟩] else []) ++
      (if mem.validation_bits &&& CPER_MEM_VALID_ERROR_TYPE ≠ 0 then
        [⟨.normal, pfx ++ "error_type: " ++ toString mem.error_type ++ ", " ++
          cper_mem_err_type_strs.getD mem.error_type "unknown" ++ "\n"⟩] else []) ++
      (if mem.validation_bits &&& CPER_MEM_VALID_MODULE_HANDLE ≠ 0 then
        (match dmi mem.mem_dev_handle with
         | some (bank, device) =>
           [⟨.normal, pfx ++ "DIMM location: " ++ bank ++ " " ++ device⟩]
         | none =>
           [⟨.normal, pfx ++ "DIMM DMI handle: 0x" ++ hexPad 4 mem.mem_dev_handle⟩])
       else []) ∧
    ((cper_print_mem dmi pfx mem).filter lineIsDebug =
      (cper_print_mem dmi "" mem).filter lineIsDebug) ∧
    (∀ l ∈ (cper_print_mem dmi pfx mem).filter lineIsDebug,
      l.text = "node: " ++ toString mem.node ++ "\n" ∨
      l.text = "card: " ++ toString mem.card ++ "\n" ∨
      l.text = "module: " ++ toString mem.module ++ "\n" ∨
      l.text = "rank: " ++ toString mem.rank ++ "\n" ∨
      l.text = "bank: " ++ toString mem.bank ++ "\n" ∨
      l.text = "device: " ++ toString mem.device ++ "\n" ∨
      l.text = "row: " ++ toString mem.row ++ "\n" ∨
      l.text = "column: " ++ toString mem.column ++ "\n" ∨
      l.text = "bit_position: " ++ toString mem.bit_pos ++ "\n" ∨
      l.text = "requestor_id: 0x" ++ hexPad 16 mem.requestor_id ++ "\n" ∨
      l.text = "responder_id: 0x" ++ hexPad 16 mem.responder_id ++ "\n" ∨
      l.text = "target_id: 0x" ++ hexPad 16 mem.target_id ++ "\n") := by
  refine ⟨cper_print_mem_filter_normal dmi pfx mem, ?_, ?_⟩
  · rw [cper_print_mem_filter_debug dmi pfx mem, cper_print_mem_filter_debug dmi "" mem]
  · intro l hl
    rw [cper_print_mem_filter_debug dmi pfx mem] at hl
    simp only [List.mem_append] at hl
    rcases hl with ((((((((((h | h) | h) | h) | h) | h) | h) | h) | h) | h) | h) | h <;>
      [skip; skip; skip; skip; skip; skip; skip; skip; skip; skip; skip; skip] <;>
      (revert h; split_ifs <;> intro h <;> simp at h <;> subst h <;> simp)

/- ## Claim C3 -/

theorem cper_section_header_lines_level (pfx : String) (gdata : acpi_generic_data)
    (sec_no : Nat) :
    ∀ l ∈ cper_section_header_lines pfx gdata sec_no, l.level = LogLevel.normal := by
  intro l hl
  simp only [cper_section_header_lines, List.mem_append, List.mem_singleton] at hl
  rcases hl with (hl | hl) | hl
  · subst hl; rfl
  · revert hl
    split_ifs with hb
    · intro hl; simp at hl; subst hl; rfl
    · intro hl; simp at hl
  · revert hl
    split_ifs with hb
    · intro hl; simp at hl; subst hl; rfl
    · intro hl; simp at hl

/-- C3: cper_estatus_print_section dispatches on the 16-byte section
type before any size check.  A recognized decoder whose payload is
declared smaller than its fixed struct emits only the section_type line
plus the too-small pr_err diagnostic and skips that section's detail;
an unrecognized section type is reported only as unknown — never as
too-small (its output contains no pr_err line) whatever its
error_data_length; and the walk of cper_estatus_print advances by each
descriptor's declared error_data_length, printing every section,
regardless of what the per-section dispatch produced. -/
theorem c3_dispatch_before_size :
    (∀ (dmi : Nat → Option (String × String)) (pfx : String) (s : CperSection) (n : Nat),
      s.gdata.section_type = CPER_SEC_PROC_GENERIC →
      s.gdata.error_data_length < sizeof_cper_sec_proc_generic →
      cper_estatus_print_section dmi pfx s n =
        cper_section_header_lines pfx s.gdata n ++
        [⟨.normal, strTake (pfx ++ INDENT_SP) 63 ++ "section_type: general processor error\n"⟩,
         errSectionTooSmallLine]) ∧
    (∀ (dmi : Nat → Option (String × String)) (pfx : String) (s : CperSection) (n : Nat),
      s.gdata.section_type = CPER_SEC_PLATFORM_MEM →
      s.gdata.error_data_length < sizeof_cper_sec_mem_err →
      cper_estatus_print_section dmi pfx s n =
        cper_section_header_lines pfx s.gdata n ++
        [⟨.normal, strTake (pfx ++ INDENT_SP) 63 ++ "section_type: memory error\n"⟩,
         errSectionTooSmallLine]) ∧
    (∀ (dmi : Nat → Option (String × String)) (pfx : String) (s : CperSection) (n : Nat),
      s.gdata.section_type = CPER_SEC_PCIE →
      s.gdata.error_data_length < sizeof_cper_sec_pcie →
      cper_estatus_print_section dmi pfx s n =
        cper_section_header_lines pfx s.gdata n ++
        [⟨.normal, strTake (pfx ++ INDENT_SP) 63 ++ "section_type: PCIe error\n"⟩,
         errSectionTooSmallLine]) ∧
    (∀ (dmi : Nat → Option (String × String)) (pfx : String) (s : CperSection) (n : Nat),
      s.gdata.section_type ≠ CPER_SEC_PROC_GENERIC →
      s.gdata.section_type ≠ CPER_SEC_PLATFORM_MEM →
      s.gdata.section_type ≠ CPER_SEC_PCIE →
      cper_estatus_print_section dmi pfx s n =
        cper_section_header_lines pfx s.gdata n ++
        [⟨.normal, strTake (pfx ++ INDENT_SP) 63 ++ "section type: unknown, " ++
          pUl s.gdata.section_type ++ "\n"⟩] ∧
      ∀ l ∈ cper_estatus_print_section dmi pfx s n, l.level ≠ LogLevel.err) ∧
    (∀ (dmi : Nat → Option (String × String)) (pfx : String)
        (estatus : acpi_generic_status) (secAt : Nat → CperSection) (ls : List Nat),
      LaysOut (fun o => (secAt o).gdata.error_data_length) 0 ls →
      estatus.data_length = consumedLen ls →
      consumedLen ls < 2 ^ 32 →
      cper_estatus_print dmi pfx estatus secAt =
        some ((if estatus.error_severity % 2 ^ 16 = CPER_SEV_CORRECTED then
          [⟨.normal,
            pfx ++ "It has been corrected by h/w and requires no further action\n"⟩]
         else []) ++
         [⟨.normal, pfx ++ "event severity: " ++
           cper_severity_str (estatus.error_severity % 2 ^ 16) ++ "\n"⟩] ++
         renderSections dmi secAt (strTake (pfx ++ INDENT_SP) 63) ls 0 0)) := by
  have hproc : sizeof_cper_sec_proc_generic = 192 := rfl
  have hmem : sizeof_cper_sec_mem_err = 80 := rfl
  have hpcie : sizeof_cper_sec_pcie = 208 := rfl
  refine ⟨?_, ?_, ?_, ?_, ?_⟩
  · intro dmi pfx s n ht hlen
    simp only [cper_estatus_print_section, ht, if_true]
    rw [if_neg (show ¬ sizeof_cper_sec_proc_generic ≤ s.gdata.error_data_length from
      by omega)]
  · intro dmi pfx s n ht hlen
    simp only [cper_estatus_print_section, ht, if_true]
    rw [if_neg (show ¬ sizeof_cper_sec_mem_err ≤ s.gdata.error_data_length from by omega)]
    rw [if_neg (show CPER_SEC_PLATFORM_MEM = CPER_SEC_PROC_GENERIC → False from by decide)]
  · intro dmi pfx s n ht hlen
    simp only [cper_estatus_print_section, ht, if_true]
    rw [if_neg (show CPER_SEC_PCIE = CPER_SEC_PLATFORM_MEM → False from by decide)]
    rw [if_neg (show ¬ sizeof_cper_sec_pcie ≤ s.gdata.error_data_length from by omega)]
    rw [if_neg (show CPER_SEC_PCIE = CPER_SEC_PROC_GENERIC → False from by decide)]
  · intro dmi pfx s n hp hm hc
    have heq : cper_estatus_print_section dmi pfx s n =
        cper_section_header_lines pfx s.gdata n ++
        [⟨.normal, strTake (pfx ++ INDENT_SP) 63 ++ "section type: unknown, " ++
          pUl s.gdata.section_type ++ "\n"⟩] := by
      simp only [cper_estatus_print_section]
      rw [if_neg hp, if_neg hm, if_neg hc]
    refine ⟨heq, ?_⟩
    intro l hl
    rw [heq] at hl
    rcases List.mem_append.mp hl with hl | hl
    · rw [cper_section_header_lines_level pfx s.gdata n l hl]
      decide
    · simp at hl
      subst hl
      simp
  · intro dmi pfx estatus secAt ls hlay hlen hlt
    unfold cper_estatus_print
    rw [hlen]
    rw [cper_estatus_print_loop_spec dmi secAt (strTake (pfx ++ INDENT_SP) 63) ls 0 0
      (consumedLen ls + 1) hlay hlt (by have := consumedLen_length_le ls; omega)]

/-- A first section of memory type whose declared 5-byte payload is
smaller than the memory struct. -/
def sectionMemSmall : CperSection :=
  ⟨⟨CPER_SEC_PLATFORM_MEM, 0, 0, 0, 0, 5, 0, "", 0⟩, procZero, memZero, pcieZero⟩

/-- A section of unrecognized type with an empty payload. -/
def sectionUnknown : CperSection :=
  ⟨⟨0, 0, 0, 0, 0, 0, 0, "", 0⟩, procZero, memZero, pcieZero⟩

/-- The descriptor area holding sectionMemSmall at offset 0 and
sectionUnknown everywhere else (in particular at offset 77). -/
def secAtW : Nat → CperSection := fun off => if off = 0 then sectionMemSmall else sectionUnknown

/-- Concrete instance of C3: a validated two-section blob whose first
section is a too-small memory section still renders (the walk reaches
and prints both sections). -/
theorem c3_dispatch_before_size_witness :
    cper_estatus_print (fun _ => none) "" ⟨0, 0, 0, 149, 0⟩ secAtW ≠ none := by
  have h := c3_dispatch_before_size.2.2.2.2 (fun _ => none) "" ⟨0, 0, 0, 149, 0⟩ secAtW
    [5, 0] ⟨by decide, by decide, trivial⟩ (by decide) (by decide)
  rw [h]
  simp

/-- Memory section with the node validation bit set and node = 5, for
the C9 witness. -/
def memNode : cper_sec_mem_err := ⟨0x8, 0, 0, 0, 5, 0, 0, 0, 0, 0, 0, 0, 0, 0, 0, 0, 0, 0, 0⟩

/-- Concrete instance of C9: the node line of a node-valid memory
section is one of the twelve debug-only field lines. -/
theorem c9_mem_debug_only_fields_witness :
    (Line.mk LogLevel.debug "node: 5\n").text = "node: " ++ toString memNode.node ++ "\n" ∨
    (Line.mk LogLevel.debug "node: 5\n").text = "card: " ++ toString memNode.card ++ "\n" ∨
    (Line.mk LogLevel.debug "node: 5\n").text = "module: " ++ toString memNode.module ++ "\n" ∨
    (Line.mk LogLevel.debug "node: 5\n").text = "rank: " ++ toString memNode.rank ++ "\n" ∨
    (Line.mk LogLevel.debug "node: 5\n").text = "bank: " ++ toString memNode.bank ++ "\n" ∨
    (Line.mk LogLevel.debug "node: 5\n").text = "device: " ++ toString memNode.device ++ "\n" ∨
    (Line.mk LogLevel.debug "node: 5\n").text = "row: " ++ toString memNode.row ++ "\n" ∨
    (Line.mk LogLevel.debug "node: 5\n").text = "column: " ++ toString memNode.column ++ "\n" ∨
    (Line.mk LogLevel.debug "node: 5\n").text =
      "bit_position: " ++ toString memNode.bit_pos ++ "\n" ∨
    (Line.mk LogLevel.debug "node: 5\n").text =
      "requestor_id: 0x" ++ hexPad 16 memNode.requestor_id ++ "\n" ∨
    (Line.mk LogLevel.debug "node: 5\n").text =
      "responder_id: 0x" ++ hexPad 16 memNode.responder_id ++ "\n" ∨
    (Line.mk LogLevel.debug "node: 5\n").text =
      "target_id: 0x" ++ hexPad 16 memNode.target_id ++ "\n" :=
  (c9_mem_debug_only_fields (fun _ => none) "P" memNode).2.2
    ⟨LogLevel.debug, "node: 5\n"⟩ (by decide)

/- ## Claim C6: cper_next_record_id (cper.c:42) -/

/-- 2^64: the counter is a 64-bit atomic. -/
def U64 : Nat := 2 ^ 64

/-- The local state of one caller of cper_next_record_id: its seed
value (the (u64)get_seconds() << 32 it would store, a function of the
wall clock at its call), its program counter over the three atomic
operations, the value its atomic64_read returned, and the value it
returned (none while still running). -/
structure IdThread where
  seed : Nat
  pc : Nat
  r : Nat
  ret : Option Nat
deriving DecidableEq

/-- One atomic step of one caller of cper_next_record_id (cper.c:46-49)
against the shared counter seq: pc 0 performs atomic64_read(&seq);
pc 1 performs the conditional atomic64_set(&seq, seed) (taken exactly
when the read observed zero); pc 2 performs atomic64_inc_return(&seq)
and records the returned value; a finished caller (pc >= 3) does
nothing. -/
def cper_next_record_id_step (seq : Nat) (t : IdThread) : Nat × IdThread :=
  match t.pc with
  | 0 => (seq, { t with r := seq, pc := 1 })
  | 1 => (if t.r = 0 then t.seed % U64 else seq, { t with pc := 2 })
  | 2 =>
    let v := (seq + 1) % U64
    (v, { t with ret := some v, pc := 3 })
  | _ => (seq, t)

/-- Sequentially-consistent interleaving semantics: run a schedule (a
list of caller indices, each entry letting that caller execute its next
atomic operation) over the shared counter and the callers' states. -/
def runSched : List Nat → Nat × List IdThread → Nat × List IdThread
  | [], s => s
  | i :: rest, (seq, ts) =>
    match ts[i]? with
    | none => runSched rest (seq, ts)
    | some t =>
      let p := cper_next_record_id_step seq t
      runSched rest (p.1, ts.set i p.2)

/-- C6 counterexample: two concurrent callers with equal seeds (same
wall-clock second), interleaved so that both observe the counter at
zero (schedule: B reads; A reads, seeds, increments and returns; B then
seeds — overwriting the counter — increments and returns).  Both calls
return 3 * 2^32 + 1: the same 64-bit value twice, refuting the claim
that cper_next_record_id never repeats a value under concurrent
callers. -/
theorem c6_counterexample :
    ((runSched [1, 0, 0, 0, 1, 1]
        (0, [⟨3 * 2 ^ 32, 0, 0, none⟩, ⟨3 * 2 ^ 32, 0, 0, none⟩])).2.map IdThread.ret) =
      [some (3 * 2 ^ 32 + 1), some (3 * 2 ^ 32 + 1)] := by decide

/-- Two callers never returned the same value. -/
def RetDistinct (a b : IdThread) : Prop :=
  ∀ va vb, a.ret = some va → b.ret = some vb → va ≠ vb

theorem retDistinct_of_none_left {a b : IdThread} (h : a.ret = none) : RetDistinct a b := by
  intro va vb ha _
  rw [h] at ha
  exact absurd ha (by simp)

theorem retDistinct_of_none_right {a b : IdThread} (h : b.ret = none) : RetDistinct a b := by
  intro va vb _ hb
  rw [h] at hb
  exact absurd hb (by simp)

theorem pairwise_retDistinct_of_none {ts : List IdThread}
    (h : ∀ t ∈ ts, t.ret = none) : List.Pairwise RetDistinct ts := by
  induction ts with
  | nil => exact List.Pairwise.nil
  | cons x xs ih =>
    refine List.Pairwise.cons ?_ (ih fun t ht => h t (List.mem_cons_of_mem x ht))
    intro b _
    exact retDistinct_of_none_left (h x (List.mem_cons_self x xs))

theorem mem_of_getElem?_eq {α : Type} :
    ∀ (l : List α) (i : Nat) (a : α), l[i]? = some a → a ∈ l := by
  intro l
  induction l with
  | nil => intro i a h; simp at h
  | cons x xs ih =>
    intro i a h
    cases i with
    | zero =>
      simp at h
      subst h
      exact List.mem_cons_self x xs
    | succ n =>
      simp at h
      exact List.mem_cons_of_mem x (ih n a h)

theorem getElem?_set_ne' {α : Type} :
    ∀ (l : List α) (i k : Nat) (a : α), i ≠ k → (l.set i a)[k]? = l[k]? := by
  intro l
  induction l with
  | nil => intro i k a _; simp
  | cons x xs ih =>
    intro i k a hik
    cases i with
    | zero =>
      cases k with
      | zero => exact absurd rfl hik
      | succ m => simp [List.set]
    | succ n =>
      cases k with
      | zero => simp [List.set]
      | succ m =>
        simp only [List.set, List.getElem?_cons_succ]
        exact ih n m a (by omega)

theorem getElem?_set_eq' {α : Type} :
    ∀ (l : List α) (i : Nat) (t t' : α), l[i]? = some t → (l.set i t')[i]? = some t' := by
  intro l
  induction l with
  | nil => intro i t t' h; simp at h
  | cons x xs ih =>
    intro i t t' h
    cases i with
    | zero => simp [List.set]
    | succ n =>
      simp only [List.getElem?_cons_succ] at h
      simp only [List.set, List.getElem?_cons_succ]
      exact ih n t t' h

theorem list_set_self {α : Type} :
    ∀ (l : List α) (i : Nat) (t : α), l[i]? = some t → l.set i t = l := by
  intro l
  induction l with
  | nil => intro i t h; simp at h
  | cons x xs ih =>
    intro i t h
    cases i with
    | zero =>
      simp at h
      subst h
      simp [List.set]
    | succ n =>
      simp only [List.getElem?_cons_succ] at h
      simp only [List.set]
      rw [ih n t h]

theorem pairwise_ret_set :
    ∀ (ts : List IdThread) (i : Nat) (t' : IdThread),
      List.Pairwise RetDistinct ts →
      (∀ t2 ∈ ts, RetDistinct t2 t' ∧ RetDistinct t' t2) →
      List.Pairwise RetDistinct (ts.set i t') := by
  intro ts
  induction ts with
  | nil => intro i t' _ _; simp [List.set]
  | cons x xs ih =>
    intro i t' hpair hdist
    cases hpair with
    | cons hx hxs =>
      cases i with
      | zero =>
        simp only [List.set]
        refine List.Pairwise.cons ?_ hxs
        intro b hb
        exact (hdist b (List.mem_cons_of_mem x hb)).2
      | succ n =>
        simp only [List.set]
        refine List.Pairwise.cons ?_ ?_
        · intro b hb
          rcases List.mem_or_eq_of_mem_set hb with hb | hb
          · exact hx b hb
          · subst hb
            exact (hdist x (List.mem_cons_self x xs)).1
        · exact ih n t' hxs fun t2 ht2 => hdist t2 (List.mem_cons_of_mem x ht2)

/-- The global invariant of the record-id generator once the counter is
past zero: every running caller that already performed its read saw a
nonzero value (so it will not reseed), unfinished callers have no
return value yet, every returned value is at most the current counter,
and all returned values are pairwise distinct. -/
def IdInv (seq : Nat) (ts : List IdThread) : Prop :=
  0 < seq ∧
  (∀ t ∈ ts, t.pc = 1 → t.r ≠ 0) ∧
  (∀ t ∈ ts, t.pc ≤ 2 → t.ret = none) ∧
  (∀ t ∈ ts, ∀ v, t.ret = some v → v ≤ seq) ∧
  List.Pairwise RetDistinct ts

theorem cper_step_pc0 (seq : Nat) (t : IdThread) (h : t.pc = 0) :
    cper_next_record_id_step seq t = (seq, { t with r := seq, pc := 1 }) := by
  simp [cper_next_record_id_step, h]

theorem cper_step_pc1 (seq : Nat) (t : IdThread) (h : t.pc = 1) :
    cper_next_record_id_step seq t =
      (if t.r = 0 then t.seed % U64 else seq, { t with pc := 2 }) := by
  simp [cper_next_record_id_step, h]

theorem cper_step_pc2 (seq : Nat) (t : IdThread) (h : t.pc = 2) :
    cper_next_record_id_step seq t =
      ((seq + 1) % U64, { t with ret := some ((seq + 1) % U64), pc := 3 }) := by
  simp [cper_next_record_id_step, h]

theorem cper_step_pc3 (seq : Nat) (t : IdThread) (h : 3 ≤ t.pc) :
    cper_next_record_id_step seq t = (seq, t) := by
  obtain ⟨c, hc⟩ := Nat.exists_eq_add_of_le h
  have hc' : t.pc = c + 3 := by omega
  simp [cper_next_record_id_step, hc']

theorem cper_step_preserves (seq0 j seq : Nat) (ts : List IdThread) (i : Nat) (t : IdThread)
    (hts : ts[i]? = some t) (hinv : IdInv seq ts) (hbud : seq + 1 < U64) (hseq0 : seq0 ≤ seq)
    (htrack : ∀ tj, ts[j]? = some tj → tj.ret = none ∨ ∃ v, tj.ret = some v ∧ seq0 < v) :
    IdInv (cper_next_record_id_step seq t).1 (ts.set i (cper_next_record_id_step seq t).2) ∧
    seq ≤ (cper_next_record_id_step seq t).1 ∧
    (cper_next_record_id_step seq t).1 ≤ seq + 1 ∧
    (∀ tj, (ts.set i (cper_next_record_id_step seq t).2)[j]? = some tj →
      tj.ret = none ∨ ∃ v, tj.ret = some v ∧ seq0 < v) := by
  obtain ⟨hpos, hr, hnone, hle, hpair⟩ := hinv
  have hmem : t ∈ ts := mem_of_getElem?_eq ts i t hts
  have htrack' : ∀ t' : IdThread, (t'.ret = none ∨ ∃ v, t'.ret = some v ∧ seq0 < v) →
      ∀ tj, (ts.set i t')[j]? = some tj →
        tj.ret = none ∨ ∃ v, tj.ret = some v ∧ seq0 < v := by
    intro t' ht' tj htj
    by_cases hij : i = j
    · subst hij
      rw [getElem?_set_eq' ts i t t' hts] at htj
      rw [← Option.some.inj htj]
      exact ht'
    · rw [getElem?_set_ne' ts i j t' hij] at htj
      exact htrack tj htj
  by_cases h0 : t.pc = 0
  · rw [cper_step_pc0 seq t h0]
    have hretn : t.ret = none := hnone t hmem (by omega)
    refine ⟨⟨hpos, ?_, ?_, ?_, ?_⟩, le_refl seq, by omega, ?_⟩
    · intro t2 ht2 hp1
      rcases List.mem_or_eq_of_mem_set ht2 with h2 | h2
      · exact hr t2 h2 hp1
      · subst h2
        show seq ≠ 0
        omega
    · intro t2 ht2 hp2
      rcases List.mem_or_eq_of_mem_set ht2 with h2 | h2
      · exact hnone t2 h2 hp2
      · subst h2
        exact hretn
    · intro t2 ht2 v hv
      rcases List.mem_or_eq_of_mem_set ht2 with h2 | h2
      · exact hle t2 h2 v hv
      · subst h2
        rw [show ({ t with r := seq, pc := 1 } : IdThread).ret = t.ret from rfl, hretn] at hv
        exact absurd hv (by simp)
    · refine pairwise_ret_set ts i _ hpair ?_
      intro t2 _
      exact ⟨retDistinct_of_none_right hretn, retDistinct_of_none_left hretn⟩
    · exact htrack' _ (Or.inl hretn)
  by_cases h1 : t.pc = 1
  · rw [cper_step_pc1 seq t h1]
    have hrne : t.r ≠ 0 := hr t hmem h1
    rw [if_neg hrne]
    have hretn : t.ret = none := hnone t hmem (by omega)
    refine ⟨⟨hpos, ?_, ?_, ?_, ?_⟩, le_refl seq, by omega, ?_⟩
    · intro t2 ht2 hp1
      rcases List.mem_or_eq_of_mem_set ht2 with h2 | h2
      · exact hr t2 h2 hp1
      · subst h2
        exact absurd hp1 (by simp)
    · intro t2 ht2 hp2
      rcases List.mem_or_eq_of_mem_set ht2 with h2 | h2
      · exact hnone t2 h2 hp2
      · subst h2
        exact hretn
    · intro t2 ht2 v hv
      rcases List.mem_or_eq_of_mem_set ht2 with h2 | h2
      · exact hle t2 h2 v hv
      · subst h2
        rw [show ({ t with pc := 2 } : IdThread).ret = t.ret from rfl, hretn] at hv
        exact absurd hv (by simp)
    · refine pairwise_ret_set ts i _ hpair ?_
      intro t2 _
      exact ⟨retDistinct_of_none_right hretn, retDistinct_of_none_left hretn⟩
    · exact htrack' _ (Or.inl hretn)
  by_cases h2 : t.pc = 2
  · rw [cper_step_pc2 seq t h2]
    have hmod : (seq + 1) % U64 = seq + 1 := Nat.mod_eq_of_lt hbud
    rw [hmod]
    refine ⟨⟨by omega, ?_, ?_, ?_, ?_⟩, by omega, by omega, ?_⟩
    · intro t2 ht2 hp1
      rcases List.mem_or_eq_of_mem_set ht2 with h2' | h2'
      · exact hr t2 h2' hp1
      · subst h2'
        exact absurd hp1 (by simp)
    · intro t2 ht2 hp2
      rcases List.mem_or_eq_of_mem_set ht2 with h2' | h2'
      · exact hnone t2 h2' hp2
      · subst h2'
        exact absurd hp2 (by simp)
    · intro t2 ht2 v hv
      rcases List.mem_or_eq_of_mem_set ht2 with h2' | h2'
      · exact Nat.le_succ_of_le (hle t2 h2' v hv)
      · subst h2'
        rw [show ({ t with ret := some (seq + 1), pc := 3 } : IdThread).ret =
          some (seq + 1) from rfl] at hv
        have hveq := Option.some.inj hv
        show v ≤ seq + 1
        omega
    · refine pairwise_ret_set ts i _ hpair ?_
      intro t2 ht2
      constructor
      · intro va vb hva hvb
        have hva' : va ≤ seq := hle t2 ht2 va hva
        have hvb' : vb = seq + 1 := by
          rw [show ({ t with ret := some (seq + 1), pc := 3 } : IdThread).ret =
            some (seq + 1) from rfl] at hvb
          exact (Option.some.inj hvb).symm
        omega
      · intro va vb hva hvb
        have hva' : va = seq + 1 := by
          rw [show ({ t with ret := some (seq + 1), pc := 3 } : IdThread).ret =
            some (seq + 1) from rfl] at hva
          exact (Option.some.inj hva).symm
        have hvb' : vb ≤ seq := hle t2 ht2 vb hvb
        omega
    · refine htrack' _ (Or.inr ⟨seq + 1, rfl, by omega⟩)
  have h3 : 3 ≤ t.pc := by omega
  rw [cper_step_pc3 seq t h3]
  rw [list_set_self ts i t hts]
  exact ⟨⟨hpos, hr, hnone, hle, hpair⟩, le_refl seq, by omega, htrack⟩

theorem runSched_preserves (seq0 j : Nat) :
    ∀ (sched : List Nat) (seq : Nat) (ts : List IdThread),
      IdInv seq ts → seq + sched.length < U64 → seq0 ≤ seq →
      (∀ tj, ts[j]? = some tj → tj.ret = none ∨ ∃ v, tj.ret = some v ∧ seq0 < v) →
      IdInv (runSched sched (seq, ts)).1 (runSched sched (seq, ts)).2 ∧
      seq ≤ (runSched sched (seq, ts)).1 ∧
      (runSched sched (seq, ts)).1 ≤ seq + sched.length ∧
      (∀ tj, (runSched sched (seq, ts)).2[j]? = some tj →
        tj.ret = none ∨ ∃ v, tj.ret = some v ∧ seq0 < v) := by
  intro sched
  induction sched with
  | nil =>
    intro seq ts hinv _ _ htrack
    exact ⟨hinv, le_refl seq, Nat.le_add_right _ _, htrack⟩
  | cons i rest ih =>
    intro seq ts hinv hbud hseq0 htrack
    cases hts : ts[i]? with
    | none =>
      simp only [runSched, hts]
      have h := ih seq ts hinv (by simp at hbud ⊢; omega) hseq0 htrack
      refine ⟨h.1, h.2.1, ?_, h.2.2.2⟩
      have := h.2.2.1
      simp only [List.length_cons]
      omega
    | some t =>
      simp only [runSched, hts]
      have hstep := cper_step_preserves seq0 j seq ts i t hts hinv
        (by simp at hbud; omega) hseq0 htrack
      have hrest := ih (cper_next_record_id_step seq t).1
        (ts.set i (cper_next_record_id_step seq t).2) hstep.1
        (by simp at hbud; omega) (by omega) hstep.2.2.2
      refine ⟨hrest.1, ?_, ?_, hrest.2.2.2⟩
      · calc seq ≤ (cper_next_record_id_step seq t).1 := hstep.2.1
          _ ≤ _ := hrest.2.1
      · have h1 := hrest.2.2.1
        have h2 := hstep.2.2.1
        simp only [List.length_cons]
        omega

theorem runSched_append :
    ∀ (s1 s2 : List Nat) (st : Nat × List IdThread),
      runSched (s1 ++ s2) st = runSched s2 (runSched s1 st) := by
  intro s1
  induction s1 with
  | nil => intro s2 st; rfl
  | cons i rest ih =>
    intro s2 st
    obtain ⟨seq, ts⟩ := st
    simp only [List.cons_append, runSched]
    cases hts : ts[i]? with
    | none => exact ih s2 (seq, ts)
    | some t => exact ih s2 _

theorem runSched_length :
    ∀ (sched : List Nat) (seq : Nat) (ts : List IdThread),
      ((runSched sched (seq, ts)).2).length = ts.length := by
  intro sched
  induction sched with
  | nil => intro seq ts; rfl
  | cons i rest ih =>
    intro seq ts
    simp only [runSched]
    cases hts : ts[i]? with
    | none => exact ih seq ts
    | some t =>
      rw [ih]
      exact List.length_set ts i _

theorem runSched_not_mem (k : Nat) :
    ∀ (sched : List Nat) (seq : Nat) (ts : List IdThread), k ∉ sched →
      (runSched sched (seq, ts)).2[k]? = ts[k]? := by
  intro sched
  induction sched with
  | nil => intro seq ts _; rfl
  | cons i rest ih =>
    intro seq ts hk
    have hki : i ≠ k := fun h => hk (by rw [h]; exact List.mem_cons_self k rest)
    have hkr : k ∉ rest := fun h => hk (List.mem_cons_of_mem i h)
    simp only [runSched]
    cases hts : ts[i]? with
    | none => exact ih seq ts hkr
    | some t =>
      rw [ih _ _ hkr]
      exact getElem?_set_ne' ts i k _ hki

/-- C6 (amended): the returned ids are guaranteed unique and ordered
only when the lazy seeding is not racing.  Starting from any state in
which the counter has already been seeded and incremented by a
completed first call (counter nonzero, every remaining caller not yet
started) and running any interleaving of the remaining callers' atomic
operations (within 2^64 - counter steps, i.e. absent 64-bit
wrap-around): no two callers ever return the same value, and for two
non-overlapping calls — one whose steps all lie in the first part of
the schedule, one whose steps all lie in the second — the earlier call
returns a strictly smaller id than the later one.  (The unamended
claim, quantifying over all concurrent interleavings including the
seeding race, is refuted by c6_counterexample.) -/
theorem c6_next_record_id_amended (s1 s2 : List Nat) (seqInit : Nat) (ts : List IdThread)
    (hstart : ∀ t ∈ ts, t.pc = 0 ∧ t.ret = none)
    (hseeded : 0 < seqInit)
    (hbud : seqInit + (s1.length + s2.length) < U64) :
    List.Pairwise RetDistinct (runSched (s1 ++ s2) (seqInit, ts)).2 ∧
    (∀ (i j : Nat) (ti tj : IdThread) (vi vj : Nat),
      i ∉ s2 → j ∉ s1 →
      (runSched (s1 ++ s2) (seqInit, ts)).2[i]? = some ti → ti.ret = some vi →
      (runSched (s1 ++ s2) (seqInit, ts)).2[j]? = some tj → tj.ret = some vj →
      vi < vj) := by
  have hInv0 : IdInv seqInit ts := by
    refine ⟨hseeded, ?_, ?_, ?_, ?_⟩
    · intro t ht hp1
      have := (hstart t ht).1
      omega
    · intro t ht _
      exact (hstart t ht).2
    · intro t ht v hv
      rw [(hstart t ht).2] at hv
      exact absurd hv (by simp)
    · exact pairwise_retDistinct_of_none fun t ht => (hstart t ht).2
  have htrack0 : ∀ (j : Nat) (tj : IdThread), ts[j]? = some tj →
      tj.ret = none ∨ ∃ v, tj.ret = some v ∧ seqInit < v :=
    fun j tj htj => Or.inl (hstart tj (mem_of_getElem?_eq ts j tj htj)).2
  constructor
  · have h := runSched_preserves seqInit 0 (s1 ++ s2) seqInit ts hInv0
      (by simp only [List.length_append]; omega) (le_refl seqInit) (htrack0 0)
    exact h.1.2.2.2.2
  · intro i j ti tj vi vj hi2 hj1 hti hreti htj hretj
    have hmid := runSched_preserves seqInit j s1 seqInit ts hInv0 (by omega)
      (le_refl seqInit) (htrack0 j)
    have hjmid : (runSched s1 (seqInit, ts)).2[j]? = ts[j]? :=
      runSched_not_mem j s1 seqInit ts hj1
    have happ : runSched (s1 ++ s2) (seqInit, ts) =
        runSched s2 ((runSched s1 (seqInit, ts)).1, (runSched s1 (seqInit, ts)).2) := by
      rw [runSched_append]
    have hmid2 := runSched_preserves (runSched s1 (seqInit, ts)).1 j s2
      (runSched s1 (seqInit, ts)).1 (runSched s1 (seqInit, ts)).2 hmid.1
      (by have := hmid.2.2.1; omega) (le_refl _)
      (by
        intro tjm htjm
        rw [hjmid] at htjm
        exact Or.inl (hstart tjm (mem_of_getElem?_eq ts j tjm htjm)).2)
    have hifinal : (runSched s2 ((runSched s1 (seqInit, ts)).1,
        (runSched s1 (seqInit, ts)).2)).2[i]? = (runSched s1 (seqInit, ts)).2[i]? :=
      runSched_not_mem i s2 _ _ hi2
    have hti' : (runSched s1 (seqInit, ts)).2[i]? = some ti := by
      rw [← hifinal, ← happ]
      exact hti
    have hvi : vi ≤ (runSched s1 (seqInit, ts)).1 :=
      hmid.1.2.2.2.1 ti (mem_of_getElem?_eq _ i ti hti') vi hreti
    have htj' : (runSched s2 ((runSched s1 (seqInit, ts)).1,
        (runSched s1 (seqInit, ts)).2)).2[j]? = some tj := by
      rw [← happ]
      exact htj
    rcases hmid2.2.2.2 tj htj' with hn | ⟨v, hv, hvgt⟩
    · rw [hn] at hretj
      exact absurd hretj (by simp)
    · rw [hv] at hretj
      have := Option.some.inj hretj
      omega

/-- Concrete instance of C6 (amended): from a seeded counter at 5, two
further callers serialized one after the other return pairwise distinct
ids. -/
theorem c6_next_record_id_amended_witness :
    List.Pairwise RetDistinct
      (runSched ([0, 0, 0] ++ [1, 1, 1])
        (5, [⟨2 ^ 32, 0, 0, none⟩, ⟨2 ^ 32, 0, 0, none⟩])).2 :=
  (c6_next_record_id_amended [0, 0, 0] [1, 1, 1] 5
    [⟨2 ^ 32, 0, 0, none⟩, ⟨2 ^ 32, 0, 0, none⟩]
    (by decide) (by decide) (by decide)).1
